import Mathlib

set_option maxRecDepth 1000000

/-!
Verification of the BIP-322 message-signing library against its specification.

The repository ships `Address.ts` (address helpers) together with the test
suite and index of the verifier; the `Verifier`, `Witness` and `BIP322`
modules themselves are not present in the source tree, so those components
are modelled from the specification (each such definition carries a
`Modelled from the spec:` doc comment).  The cryptographic and encoding
primitives the spec delegates to external collaborators (SHA-256,
RIPEMD-160, secp256k1 ECDSA/Schnorr, base58check, bech32/bech32m, base64)
are implemented concretely following their published standards so that the
spec's literal test vectors can be evaluated inside the proofs.

Bytes are modelled as `Nat` values kept below 256; buffers as `List Nat`.
-/

namespace BSpec

/-! ## Byte-level helpers -/

/-- Little-endian byte encoding of `n` in exactly `k` bytes (mod 2^(8k)). -/
def leBytes : Nat → Nat → List Nat
  | 0, _ => []
  | k + 1, n => (n % 256) :: leBytes k (n / 256)

/-- Big-endian byte encoding of `n` in exactly `k` bytes. -/
def beBytes (k n : Nat) : List Nat := (leBytes k n).reverse

/-- Interpret a big-endian byte list as a natural number. -/
def natOfBE (l : List Nat) : Nat := l.foldl (fun a b => a * 256 + b) 0

/-- Minimal big-endian byte encoding (no leading zero bytes); `f` is fuel. -/
def beBytesMin : Nat → Nat → List Nat
  | 0, _ => []
  | _ + 1, 0 => []
  | f + 1, n => beBytesMin f (n / 256) ++ [n % 256]

/-- UTF-8 encoding of a single character. -/
def utf8Char (c : Char) : List Nat :=
  let n := c.toNat
  if n < 128 then [n]
  else if n < 2048 then [192 + n / 64, 128 + n % 64]
  else if n < 65536 then [224 + n / 4096, 128 + (n / 64) % 64, 128 + n % 64]
  else [240 + n / 262144, 128 + (n / 4096) % 64, 128 + (n / 64) % 64, 128 + n % 64]

/-- UTF-8 bytes of a string (the message byte encoding used by the library). -/
def utf8 (s : String) : List Nat := (s.data.map utf8Char).flatten

/-! ## SHA-256 -/

def M32 : Nat := 4294967296

def rotr32 (n w : Nat) : Nat := ((w >>> n) ||| (w <<< (32 - n))) % M32

def sha256K : List Nat :=
  [1116352408, 1899447441, 3049323471, 3921009573, 961987163, 1508970993,
   2453635748, 2870763221, 3624381080, 310598401, 607225278, 1426881987,
   1925078388, 2162078206, 2614888103, 3248222580, 3835390401, 4022224774,
   264347078, 604807628, 770255983, 1249150122, 1555081692, 1996064986,
   2554220882, 2821834349, 2952996808, 3210313671, 3336571891, 3584528711,
   113926993, 338241895, 666307205, 773529912, 1294757372, 1396182291,
   1695183700, 1986661051, 2177026350, 2456956037, 2730485921, 2820302411,
   3259730800, 3345764771, 3516065817, 3600352804, 4094571909, 275423344,
   430227734, 506948616, 659060556, 883997877, 958139571, 1322822218,
   1537002063, 1747873779, 1955562222, 2024104815, 2227730452, 2361852424,
   2428436474, 2756734187, 3204031479, 3329325298]

def sha256H0 : List Nat :=
  [1779033703, 3144134277, 1013904242, 2773480762,
   1359893119, 2600822924, 528734635, 1541459225]

/-- SHA-256 small sigma 0. -/
def ssig0 (w : Nat) : Nat := (rotr32 7 w) ^^^ (rotr32 18 w) ^^^ (w >>> 3)

/-- SHA-256 small sigma 1. -/
def ssig1 (w : Nat) : Nat := (rotr32 17 w) ^^^ (rotr32 19 w) ^^^ (w >>> 10)

/-- SHA-256 big sigma 0. -/
def bsig0 (w : Nat) : Nat := (rotr32 2 w) ^^^ (rotr32 13 w) ^^^ (rotr32 22 w)

/-- SHA-256 big sigma 1. -/
def bsig1 (w : Nat) : Nat := (rotr32 6 w) ^^^ (rotr32 11 w) ^^^ (rotr32 25 w)

def chF (x y z : Nat) : Nat := (x &&& y) ^^^ ((x ^^^ (M32 - 1)) &&& z)

def majF (x y z : Nat) : Nat := (x &&& y) ^^^ (x &&& z) ^^^ (y &&& z)

/-- Extend the first 16 schedule words (given reversed) by `fuel` words. -/
def schedRev : Nat → List Nat → List Nat
  | 0, acc => acc
  | f + 1, acc =>
    let nw := (ssig1 (acc.getD 1 0) + acc.getD 6 0 + ssig0 (acc.getD 14 0) + acc.getD 15 0) % M32
    schedRev f (nw :: acc)

/-- Split a byte list into big-endian 32-bit words (`f` is fuel). -/
def words32 : Nat → List Nat → List Nat
  | 0, _ => []
  | _ + 1, [] => []
  | f + 1, l => natOfBE (l.take 4) :: words32 f (l.drop 4)

structure S8 where
  a : Nat
  b : Nat
  c : Nat
  d : Nat
  e : Nat
  f : Nat
  g : Nat
  h : Nat

def shaStep (st : S8) (kw : Nat) : S8 :=
  let t1 := (st.h + bsig1 st.e + chF st.e st.f st.g + kw) % M32
  let t2 := (bsig0 st.a + majF st.a st.b st.c) % M32
  { a := (t1 + t2) % M32, b := st.a, c := st.b, d := st.c,
    e := (st.d + t1) % M32, f := st.e, g := st.f, h := st.g }

/-- Compress one 64-byte block into the running hash state (8 words). -/
def shaBlock (hs : List Nat) (block : List Nat) : List Nat :=
  let w16 := words32 16 block
  let ws := (schedRev 48 w16.reverse).reverse
  let kw := (sha256K.zip ws).map (fun p => (p.1 + p.2) % M32)
  let st0 : S8 := { a := hs.getD 0 0, b := hs.getD 1 0, c := hs.getD 2 0, d := hs.getD 3 0,
                    e := hs.getD 4 0, f := hs.getD 5 0, g := hs.getD 6 0, h := hs.getD 7 0 }
  let st := kw.foldl shaStep st0
  [(hs.getD 0 0 + st.a) % M32, (hs.getD 1 0 + st.b) % M32, (hs.getD 2 0 + st.c) % M32,
   (hs.getD 3 0 + st.d) % M32, (hs.getD 4 0 + st.e) % M32, (hs.getD 5 0 + st.f) % M32,
   (hs.getD 6 0 + st.g) % M32, (hs.getD 7 0 + st.h) % M32]

/-- Split a list into chunks of `sz` elements (`f` is fuel). -/
def chunksOf : Nat → Nat → List Nat → List (List Nat)
  | _, 0, _ => []
  | _, _ + 1, [] => []
  | sz, f + 1, l => l.take sz :: chunksOf sz f (l.drop sz)

/-- SHA-256 padding of a byte message. -/
def shaPad (msg : List Nat) : List Nat :=
  let len := msg.length
  msg ++ [0x80] ++ List.replicate ((64 - ((len + 9) % 64)) % 64) 0 ++ beBytes 8 (8 * len)

/-- SHA-256 of a byte list, as a 32-byte list. -/
def sha256 (msg : List Nat) : List Nat :=
  let blocks := chunksOf 64 (shaPad msg).length (shaPad msg)
  ((blocks.foldl shaBlock sha256H0).map (beBytes 4)).flatten

/-- Double SHA-256. -/
def sha256d (msg : List Nat) : List Nat := sha256 (sha256 msg)

/-- BIP-340 style tagged hash: `SHA256(SHA256(tag) ∥ SHA256(tag) ∥ msg)`. -/
def taggedHash (tag : String) (msg : List Nat) : List Nat :=
  sha256 (sha256 (utf8 tag) ++ sha256 (utf8 tag) ++ msg)

/-! ## secp256k1 -/

def pF : Nat := 115792089237316195423570985008687907853269984665640564039457584007908834671663

def nF : Nat := 115792089237316195423570985008687907852837564279074904382605163141518161494337

def gX : Nat := 55066263022277343669578718895168534326250603453777594175500187360389116729240

def gY : Nat := 32670510020758816978083085130507043184471273380659243275938904335757337482424

/-- Modular exponentiation by binary decomposition of the exponent (fuel-driven). -/
def powmodAux (m : Nat) : Nat → Nat → Nat → Nat → Nat
  | 0, _, _, acc => acc
  | f + 1, b, e, acc =>
    if e = 0 then acc
    else powmodAux m f ((b * b) % m) (e / 2) (if e % 2 = 1 then (acc * b) % m else acc)

def powmod (m b e : Nat) : Nat := powmodAux m 300 (b % m) e 1

/-- Inverse modulo the field prime (Fermat). -/
def invP (a : Nat) : Nat := powmod pF a (pF - 2)

/-- Inverse modulo the group order (Fermat). -/
def invN (a : Nat) : Nat := powmod nF a (nF - 2)

/-- `(a - b) mod m`, assuming the inputs are reduced representatives. -/
def subm (m a b : Nat) : Nat := (a + (m - b % m)) % m

/-- Jacobian projective point; `z = 0` encodes the point at infinity. -/
structure JPt where
  x : Nat
  y : Nat
  z : Nat

def jInf : JPt := { x := 1, y := 1, z := 0 }

def jG : JPt := { x := gX, y := gY, z := 1 }

def jOfAffine (q : Nat × Nat) : JPt := { x := q.1, y := q.2, z := 1 }

/-- Jacobian doubling on the a=0 curve. -/
def jDouble (pt : JPt) : JPt :=
  if pt.z = 0 then jInf
  else if pt.y = 0 then jInf
  else
    let ysq := (pt.y * pt.y) % pF
    let s := (4 * pt.x * ysq) % pF
    let m := (3 * pt.x * pt.x) % pF
    let x3 := subm pF ((m * m) % pF) ((2 * s) % pF)
    let y3 := subm pF ((m * subm pF s x3) % pF) ((8 * ysq * ysq) % pF)
    let z3 := (2 * pt.y * pt.z) % pF
    { x := x3, y := y3, z := z3 }

/-- Jacobian addition on the a=0 curve. -/
def jAdd (p q : JPt) : JPt :=
  if p.z = 0 then q
  else if q.z = 0 then p
  else
    let z1sq := (p.z * p.z) % pF
    let z2sq := (q.z * q.z) % pF
    let u1 := (p.x * z2sq) % pF
    let u2 := (q.x * z1sq) % pF
    let s1 := (p.y * z2sq * q.z) % pF
    let s2 := (q.y * z1sq * p.z) % pF
    if u1 = u2 then
      if s1 = s2 then jDouble p else jInf
    else
      let hh := subm pF u2 u1
      let r := subm pF s2 s1
      let hsq := (hh * hh) % pF
      let hcu := (hsq * hh) % pF
      let u1hsq := (u1 * hsq) % pF
      let x3 := subm pF (subm pF ((r * r) % pF) hcu) ((2 * u1hsq) % pF)
      let y3 := subm pF ((r * subm pF u1hsq x3) % pF) ((s1 * hcu) % pF)
      let z3 := (hh * p.z * q.z) % pF
      { x := x3, y := y3, z := z3 }

/-- Convert a Jacobian point to affine coordinates (`none` = infinity). -/
def toAffine (pt : JPt) : Option (Nat × Nat) :=
  if pt.z = 0 then none
  else
    let zi := invP pt.z
    let zi2 := (zi * zi) % pF
    some ((pt.x * zi2) % pF, (pt.y * zi2 * zi) % pF)

/-- Scalar multiplication, binary ladder (fuel-driven). -/
def scmulAux : Nat → Nat → JPt → JPt → JPt
  | 0, _, acc, _ => acc
  | f + 1, k, acc, base =>
    if k = 0 then acc
    else scmulAux f (k / 2) (if k % 2 = 1 then jAdd acc base else acc) (jDouble base)

def scmul (k : Nat) (pt : JPt) : JPt := scmulAux 300 k jInf pt

/-! ## RIPEMD-160 -/

def rotl32 (n w : Nat) : Nat := ((w <<< n) ||| (w >>> (32 - n))) % M32

def rmdF (j x y z : Nat) : Nat :=
  if j < 16 then x ^^^ y ^^^ z
  else if j < 32 then (x &&& y) ||| ((x ^^^ (M32 - 1)) &&& z)
  else if j < 48 then ((x ||| (y ^^^ (M32 - 1))) ^^^ z) % M32
  else if j < 64 then (x &&& z) ||| (y &&& (z ^^^ (M32 - 1)))
  else (x ^^^ (y ||| (z ^^^ (M32 - 1)))) % M32

def rmdKL (j : Nat) : Nat := [0, 0x5a827999, 0x6ed9eba1, 0x8f1bbcdc, 0xa953fd4e].getD (j / 16) 0

def rmdKR (j : Nat) : Nat := [0x50a28be6, 0x5c4dd124, 0x6d703ef3, 0x7a6d76e9, 0].getD (j / 16) 0

def rmdRL : List Nat :=
  [0, 1, 2, 3, 4, 5, 6, 7, 8, 9, 10, 11, 12, 13, 14, 15,
   7, 4, 13, 1, 10, 6, 15, 3, 12, 0, 9, 5, 2, 14, 11, 8,
   3, 10, 14, 4, 9, 15, 8, 1, 2, 7, 0, 6, 13, 11, 5, 12,
   1, 9, 11, 10, 0, 8, 12, 4, 13, 3, 7, 15, 14, 5, 6, 2,
   4, 0, 5, 9, 7, 12, 2, 10, 14, 1, 3, 8, 11, 6, 15, 13]

def rmdRR : List Nat :=
  [5, 14, 7, 0, 9, 2, 11, 4, 13, 6, 15, 8, 1, 10, 3, 12,
   6, 11, 3, 7, 0, 13, 5, 10, 14, 15, 8, 12, 4, 9, 1, 2,
   15, 5, 1, 3, 7, 14, 6, 9, 11, 8, 12, 2, 10, 0, 4, 13,
   8, 6, 4, 1, 3, 11, 15, 0, 5, 12, 2, 13, 9, 7, 10, 14,
   12, 15, 10, 4, 1, 5, 8, 7, 6, 2, 13, 14, 0, 3, 9, 11]

def rmdSL : List Nat :=
  [11, 14, 15, 12, 5, 8, 7, 9, 11, 13, 14, 15, 6, 7, 9, 8,
   7, 6, 8, 13, 11, 9, 7, 15, 7, 12, 15, 9, 11, 7, 13, 12,
   11, 13, 6, 7, 14, 9, 13, 15, 14, 8, 13, 6, 5, 12, 7, 5,
   11, 12, 14, 15, 14, 15, 9, 8, 9, 14, 5, 6, 8, 6, 5, 12,
   9, 15, 5, 11, 6, 8, 13, 12, 5, 12, 13, 14, 11, 8, 5, 6]

def rmdSR : List Nat :=
  [8, 9, 9, 11, 13, 15, 15, 5, 7, 7, 8, 11, 14, 14, 12, 6,
   9, 13, 15, 7, 12, 8, 9, 11, 7, 7, 12, 7, 6, 15, 13, 11,
   9, 7, 15, 11, 8, 6, 6, 14, 12, 13, 5, 14, 13, 13, 7, 5,
   15, 5, 8, 11, 14, 14, 6, 14, 6, 9, 12, 9, 12, 5, 15, 8,
   8, 5, 12, 9, 12, 5, 14, 6, 8, 13, 6, 5, 15, 13, 11, 11]

structure R10 where
  al : Nat
  bl : Nat
  cl : Nat
  dl : Nat
  el : Nat
  ar : Nat
  br : Nat
  cr : Nat
  dr : Nat
  er : Nat

/-- Interpret 4 bytes as a little-endian 32-bit word. -/
def natOfLE (l : List Nat) : Nat := l.foldr (fun b acc => acc * 256 + b) 0

/-- Split a byte list into little-endian 32-bit words (`f` is fuel). -/
def words32LE : Nat → List Nat → List Nat
  | 0, _ => []
  | _ + 1, [] => []
  | f + 1, l => natOfLE (l.take 4) :: words32LE f (l.drop 4)

def rmdStep (xw : List Nat) (st : R10) (j : Nat) : R10 :=
  let tl := (rotl32 (rmdSL.getD j 0)
      ((st.al + rmdF j st.bl st.cl st.dl + xw.getD (rmdRL.getD j 0) 0 + rmdKL j) % M32) + st.el) % M32
  let tr := (rotl32 (rmdSR.getD j 0)
      ((st.ar + rmdF (79 - j) st.br st.cr st.dr + xw.getD (rmdRR.getD j 0) 0 + rmdKR j) % M32) + st.er) % M32
  { al := st.el, bl := tl, cl := st.bl, dl := rotl32 10 st.cl, el := st.dl,
    ar := st.er, br := tr, cr := st.br, dr := rotl32 10 st.cr, er := st.dr }

/-- Compress one 64-byte block into the running RIPEMD-160 state (5 words). -/
def rmdBlock (hs : List Nat) (block : List Nat) : List Nat :=
  let xw := words32LE 16 block
  let st0 : R10 := { al := hs.getD 0 0, bl := hs.getD 1 0, cl := hs.getD 2 0, dl := hs.getD 3 0, el := hs.getD 4 0,
                     ar := hs.getD 0 0, br := hs.getD 1 0, cr := hs.getD 2 0, dr := hs.getD 3 0, er := hs.getD 4 0 }
  let st := (List.range 80).foldl (rmdStep xw) st0
  [(hs.getD 1 0 + st.cl + st.dr) % M32,
   (hs.getD 2 0 + st.dl + st.er) % M32,
   (hs.getD 3 0 + st.el + st.ar) % M32,
   (hs.getD 4 0 + st.al + st.br) % M32,
   (hs.getD 0 0 + st.bl + st.cr) % M32]

/-- RIPEMD-160 padding (little-endian bit length). -/
def rmdPad (msg : List Nat) : List Nat :=
  let len := msg.length
  msg ++ [0x80] ++ List.replicate ((64 - ((len + 9) % 64)) % 64) 0 ++ leBytes 8 (8 * len)

def ripemd160 (msg : List Nat) : List Nat :=
  let blocks := chunksOf 64 (rmdPad msg).length (rmdPad msg)
  let h0 := [0x67452301, 0xefcdab89, 0x98badcfe, 0x10325476, 0xc3d2e1f0]
  ((blocks.foldl rmdBlock h0).map (leBytes 4)).flatten

/-- `RIPEMD160(SHA256(x))`, the Bitcoin key/script hash. -/
def hash160 (bs : List Nat) : List Nat := ripemd160 (sha256 bs)

/-! ## Base64 -/

def b64Alphabet : String := "ABCDEFGHIJKLMNOPQRSTUVWXYZabcdefghijklmnopqrstuvwxyz0123456789+/"

def b64CharOf (n : Nat) : Char := b64Alphabet.data.getD n 'A'

def b64ValOf (c : Char) : Option Nat :=
  let n := c.toNat
  if 65 ≤ n ∧ n ≤ 90 then some (n - 65)
  else if 97 ≤ n ∧ n ≤ 122 then some (n - 71)
  else if 48 ≤ n ∧ n ≤ 57 then some (n + 4)
  else if n = 43 then some 62
  else if n = 47 then some 63
  else none

/-- Base64 encoding of a byte list, three bytes per step (`f` is fuel). -/
def b64EncAux : Nat → List Nat → List Char
  | 0, _ => []
  | _ + 1, [] => []
  | _ + 1, [a] => [b64CharOf (a / 4), b64CharOf ((a % 4) * 16), '=', '=']
  | _ + 1, [a, b] => [b64CharOf (a / 4), b64CharOf ((a % 4) * 16 + b / 16), b64CharOf ((b % 16) * 4), '=']
  | f + 1, a :: b :: c :: rest =>
    b64CharOf (a / 4) :: b64CharOf ((a % 4) * 16 + b / 16) ::
      b64CharOf ((b % 16) * 4 + c / 64) :: b64CharOf (c % 64) :: b64EncAux f rest

def b64Encode (l : List Nat) : String := String.mk (b64EncAux l.length l)

/-- Base64 decoding, four characters per step (`f` is fuel). -/
def b64DecAux : Nat → List Char → Option (List Nat)
  | _, [] => some []
  | f + 1, c1 :: c2 :: c3 :: c4 :: rest =>
    match b64ValOf c1, b64ValOf c2 with
    | some v1, some v2 =>
      if c3 = '=' then
        if c4 = '=' ∧ rest = [] then some [v1 * 4 + v2 / 16] else none
      else
        match b64ValOf c3 with
        | some v3 =>
          if c4 = '=' then
            if rest = [] then some [v1 * 4 + v2 / 16, (v2 % 16) * 16 + v3 / 4] else none
          else
            match b64ValOf c4 with
            | some v4 =>
              (b64DecAux f rest).map
                (fun tl => (v1 * 4 + v2 / 16) :: ((v2 % 16) * 16 + v3 / 4) :: ((v3 % 4) * 64 + v4) :: tl)
            | none => none
        | none => none
    | _, _ => none
  | _, _ => none

def b64Decode (s : String) : Option (List Nat) := b64DecAux s.data.length s.data

/-! ## Bech32 / bech32m -/

def b32Charset : String := "qpzry9x8gf2tvdw0s3jn54khce6mua7l"

def idxOfChar : List Char → Char → Nat → Option Nat
  | [], _, _ => none
  | d :: rest, c, i => if d = c then some i else idxOfChar rest c (i + 1)

def b32ValOf (c : Char) : Option Nat := idxOfChar b32Charset.data c 0

def b32CharOf (n : Nat) : Char := b32Charset.data.getD n 'q'

def b32Gen : List Nat := [0x3b6a57b2, 0x26508e6d, 0x1ea119fa, 0x3d4233dd, 0x2a1462b3]

def b32Step (chk v : Nat) : Nat :=
  let b := chk >>> 25
  let c0 := ((chk &&& 0x1ffffff) <<< 5) ^^^ v
  (List.range 5).foldl (fun c i => if (b >>> i) &&& 1 = 1 then c ^^^ b32Gen.getD i 0 else c) c0

def b32Polymod (vals : List Nat) : Nat := vals.foldl b32Step 1

def b32HrpExpand (hrp : List Char) : List Nat :=
  hrp.map (fun c => c.toNat >>> 5) ++ [0] ++ hrp.map (fun c => c.toNat &&& 31)

/-- Drain full output groups out of the bit accumulator (`f` is fuel). -/
def drainBits (toB : Nat) : Nat → Nat × Nat × List Nat → Nat × Nat × List Nat
  | 0, st => st
  | f + 1, (acc, bits, out) =>
    if bits ≥ toB then
      drainBits toB f (acc, bits - toB, out ++ [(acc >>> (bits - toB)) &&& ((1 <<< toB) - 1)])
    else (acc, bits, out)

def convStep (fromB toB : Nat) (st : Option (Nat × Nat × List Nat)) (v : Nat) :
    Option (Nat × Nat × List Nat) :=
  match st with
  | none => none
  | some (acc, bits, out) =>
    if v ≥ 1 <<< fromB then none
    else some (drainBits toB 4 ((acc <<< fromB) ||| v, bits + fromB, out))

/-- General power-of-two base conversion used by segwit addresses. -/
def convBits (fromB toB : Nat) (pad : Bool) (data : List Nat) : Option (List Nat) :=
  match data.foldl (convStep fromB toB) (some (0, 0, [])) with
  | none => none
  | some (acc, bits, out) =>
    if pad then
      if bits = 0 then some out else some (out ++ [(acc <<< (toB - bits)) &&& ((1 <<< toB) - 1)])
    else if bits ≥ fromB then none
    else if (acc <<< (toB - bits)) &&& ((1 <<< toB) - 1) ≠ 0 then none
    else some out

def lastIdxOf1 (cs : List Char) : Option Nat :=
  (cs.enum.foldl (fun acc p => if p.2 = '1' then some p.1 else acc) none)

/-- Map every character through `b32ValOf`, failing on the first unknown one. -/
def b32Vals : List Char → Option (List Nat)
  | [] => some []
  | c :: rest =>
    match b32ValOf c, b32Vals rest with
    | some v, some vs => some (v :: vs)
    | _, _ => none

/-- Decode a bech32/bech32m string into (hrp, data values sans checksum, is-bech32m). -/
def bech32Decode (s : String) : Option (List Char × List Nat × Bool) :=
  let cs := s.data
  match lastIdxOf1 cs with
  | none => none
  | some i =>
    if i = 0 ∨ cs.length > 90 ∨ cs.length < i + 7 then none
    else
      let hrp := cs.take i
      let dataChars := cs.drop (i + 1)
      match b32Vals dataChars with
      | none => none
      | some vals =>
        if b32Polymod (b32HrpExpand hrp ++ vals) = 1 then
          some (hrp, vals.take (vals.length - 6), false)
        else if b32Polymod (b32HrpExpand hrp ++ vals) = 0x2bc830a3 then
          some (hrp, vals.take (vals.length - 6), true)
        else none

/-- Decode a segwit address with the expected hrp into (witness version, program bytes). -/
def segwitDecode (hrp : String) (s : String) : Option (Nat × List Nat) :=
  match bech32Decode s with
  | none => none
  | some (h, vals, isM) =>
    if h ≠ hrp.data then none
    else
      match vals with
      | [] => none
      | v :: rest =>
        if v > 16 then none
        else if v = 0 ∧ isM then none
        else if v ≠ 0 ∧ ¬ isM then none
        else
          match convBits 5 8 false rest with
          | none => none
          | some prog =>
            if prog.length < 2 ∨ prog.length > 40 then none
            else if v = 0 ∧ prog.length ≠ 20 ∧ prog.length ≠ 32 then none
            else some (v, prog)

def bech32Checksum (hrp : List Char) (vals : List Nat) (constV : Nat) : List Nat :=
  let chk := b32Polymod (b32HrpExpand hrp ++ vals ++ [0, 0, 0, 0, 0, 0]) ^^^ constV
  (List.range 6).map (fun i => (chk >>> (5 * (5 - i))) &&& 31)

def bech32Encode (hrp : String) (vals : List Nat) (constV : Nat) : String :=
  String.mk (hrp.data ++ '1' :: (vals ++ bech32Checksum hrp.data vals constV).map b32CharOf)

/-- Encode a segwit address (bech32 for v0, bech32m otherwise). -/
def segwitEncode (hrp : String) (ver : Nat) (prog : List Nat) : String :=
  bech32Encode hrp (ver :: ((convBits 8 5 true prog).getD []))
    (if ver = 0 then 1 else 0x2bc830a3)

/-! ## Base58check -/

def b58Alphabet : String := "123456789ABCDEFGHJKLMNPQRSTUVWXYZabcdefghijkmnopqrstuvwxyz"

def b58ValOf (c : Char) : Option Nat := idxOfChar b58Alphabet.data c 0

def b58CharOf (n : Nat) : Char := b58Alphabet.data.getD n '1'

def b58Vals : List Char → Option (List Nat)
  | [] => some []
  | c :: rest =>
    match b58ValOf c, b58Vals rest with
    | some v, some vs => some (v :: vs)
    | _, _ => none

def countLeadingZeroBytes : List Nat → Nat
  | [] => 0
  | b :: rest => if b = 0 then countLeadingZeroBytes rest + 1 else 0

def countLeadingOnes : List Char → Nat
  | [] => 0
  | c :: rest => if c = '1' then countLeadingOnes rest + 1 else 0

/-- Decode a base58 string into bytes. -/
def b58Decode (s : String) : Option (List Nat) :=
  match b58Vals s.data with
  | none => none
  | some vals =>
    let num := vals.foldl (fun acc v => acc * 58 + v) 0
    some (List.replicate (countLeadingOnes s.data) 0 ++ beBytesMin 100 num)

/-- Decode a base58check string, verifying the 4-byte double-SHA256 checksum. -/
def b58CheckDecode (s : String) : Option (List Nat) :=
  match b58Decode s with
  | none => none
  | some bs =>
    if bs.length < 4 then none
    else
      let payload := bs.take (bs.length - 4)
      if (sha256d payload).take 4 = bs.drop (bs.length - 4) then some payload else none

/-- Base58 digits of `n`, most significant first (`f` is fuel). -/
def b58Digits : Nat → Nat → List Char
  | 0, _ => []
  | _ + 1, 0 => []
  | f + 1, n => b58Digits f (n / 58) ++ [b58CharOf (n % 58)]

def b58Encode (bs : List Nat) : String :=
  String.mk (List.replicate (countLeadingZeroBytes bs) '1' ++ b58Digits 100 (natOfBE bs))

def b58CheckEncode (payload : List Nat) : String :=
  b58Encode (payload ++ (sha256d payload).take 4)

/-! ## secp256k1 signature algorithms -/

/-- Square root modulo the field prime (p ≡ 3 mod 4). -/
def sqrtP (a : Nat) : Option Nat :=
  let r := powmod pF a ((pF + 1) / 4)
  if (r * r) % pF = a % pF then some r else none

/-- Lift an x coordinate to the curve point with even y (BIP-340). -/
def liftXEven (x : Nat) : Option (Nat × Nat) :=
  if x ≥ pF then none
  else
    match sqrtP ((x * x % pF * x + 7) % pF) with
    | none => none
    | some y => some (x, if y % 2 = 0 then y else pF - y)

/-- Parse a 33-byte compressed or 65-byte uncompressed SEC public key. -/
def pubkeyParse (bs : List Nat) : Option (Nat × Nat) :=
  if bs.length = 33 ∧ (bs.getD 0 0 = 2 ∨ bs.getD 0 0 = 3) then
    let x := natOfBE (bs.drop 1)
    match liftXEven x with
    | none => none
    | some (_, y) => some (x, if y % 2 = bs.getD 0 0 % 2 then y else pF - y)
  else if bs.length = 65 ∧ bs.getD 0 0 = 4 then
    let x := natOfBE ((bs.drop 1).take 32)
    let y := natOfBE (bs.drop 33)
    if x < pF ∧ y < pF ∧ (y * y) % pF = (x * x % pF * x + 7) % pF then some (x, y) else none
  else none

/-- 33-byte compressed SEC encoding of an affine point. -/
def pubkeyCompress (q : Nat × Nat) : List Nat :=
  (if q.2 % 2 = 0 then 2 else 3) :: beBytes 32 q.1

/-- 65-byte uncompressed SEC encoding of an affine point. -/
def pubkeyUncompressed (q : Nat × Nat) : List Nat :=
  4 :: (beBytes 32 q.1 ++ beBytes 32 q.2)

/-- ECDSA verification of `(r, s)` over digest value `z` against public key `q`. -/
def ecdsaVerify (z r s : Nat) (q : Nat × Nat) : Bool :=
  if r = 0 ∨ r ≥ nF ∨ s = 0 ∨ s ≥ nF then false
  else
    let w := invN s
    let u1 := (z % nF * w) % nF
    let u2 := (r * w) % nF
    match toAffine (jAdd (scmul u1 jG) (scmul u2 (jOfAffine q))) with
    | none => false
    | some (x, _) => x % nF == r

/-- ECDSA public-key recovery from `(z, r, s)` and a 2-bit recovery id. -/
def ecdsaRecover (z r s recId : Nat) : Option (Nat × Nat) :=
  if r = 0 ∨ r ≥ nF ∨ s = 0 ∨ s ≥ nF then none
  else
    let x := r + (recId / 2) * nF
    if x ≥ pF then none
    else
      match sqrtP ((x * x % pF * x + 7) % pF) with
      | none => none
      | some y0 =>
        let y := if y0 % 2 = recId % 2 then y0 else pF - y0
        let ri := invN r
        let u1 := (ri * s) % nF
        let u2 := (ri * (nF - z % nF)) % nF
        toAffine (jAdd (scmul u1 (jOfAffine (x, y))) (scmul u2 jG))

/-- BIP-340 Schnorr verification of a 64-byte signature `(r, s)` against
x-only public key `px` and message `msg`. -/
def schnorrVerify (px sigR sigS : Nat) (msg : List Nat) : Bool :=
  if px ≥ pF ∨ sigR ≥ pF ∨ sigS ≥ nF then false
  else
    match liftXEven px with
    | none => false
    | some pq =>
      let e := natOfBE (taggedHash "BIP0340/challenge" (beBytes 32 sigR ++ beBytes 32 px ++ msg)) % nF
      match toAffine (jAdd (scmul sigS jG) (scmul ((nF - e) % nF) (jOfAffine pq))) with
      | none => false
      | some (rx, ry) => ry % 2 == 0 && rx == sigR

/-- Parse a DER-encoded ECDSA signature into `(r, s)`. -/
def derParse (bs : List Nat) : Option (Nat × Nat) :=
  match bs with
  | 0x30 :: len :: rest =>
    if len = rest.length then
      match rest with
      | 0x02 :: rl :: rrest =>
        if rl ≤ rrest.length then
          match rrest.drop rl with
          | 0x02 :: sl :: srest =>
            if sl = srest.length then some (natOfBE (rrest.take rl), natOfBE (srest.take sl))
            else none
          | _ => none
        else none
      | _ => none
    else none
  | _ => none

/-! ## CompactSize and the Witness codec -/

/-- Bitcoin CompactSize (varint) encoding. -/
def compactSize (n : Nat) : List Nat :=
  if n < 0xfd then [n]
  else if n < 0x10000 then 0xfd :: leBytes 2 n
  else if n < 0x100000000 then 0xfe :: leBytes 4 n
  else 0xff :: leBytes 8 n

/-- Parse a canonical CompactSize off the front of a byte list. -/
def parseCS (bs : List Nat) : Option (Nat × List Nat) :=
  match bs with
  | [] => none
  | b :: rest =>
    if b < 0xfd then some (b, rest)
    else if b = 0xfd then
      match rest with
      | b0 :: b1 :: r => if b0 + 256 * b1 ≥ 0xfd then some (b0 + 256 * b1, r) else none
      | _ => none
    else if b = 0xfe then
      match rest with
      | b0 :: b1 :: b2 :: b3 :: r =>
        let n := b0 + 256 * (b1 + 256 * (b2 + 256 * b3))
        if n ≥ 0x10000 then some (n, r) else none
      | _ => none
    else
      match rest with
      | b0 :: b1 :: b2 :: b3 :: b4 :: b5 :: b6 :: b7 :: r =>
        let n := b0 + 256 * (b1 + 256 * (b2 + 256 * (b3 + 256 * (b4 + 256 * (b5 + 256 * (b6 + 256 * b7))))))
        if n ≥ 0x100000000 then some (n, r) else none
      | _ => none

namespace Witness

/-- Modelled from the spec: the witness-stack serialization body
(`CompactSize(count)` then per item `CompactSize(len) ∥ item`); the
`Witness` module itself is not among the provided sources. -/
def serializeBytes (items : List (List Nat)) : List Nat :=
  compactSize items.length ++ (items.map (fun it => compactSize it.length ++ it)).flatten

/-- Modelled from the spec: `Witness.serialize` base64-encodes the
serialized witness stack. -/
def serialize (items : List (List Nat)) : String := b64Encode (serializeBytes items)

/-- Parse one length-prefixed witness item. -/
def parseItem (bs : List Nat) : Option (List Nat × List Nat) :=
  match parseCS bs with
  | some (len, rest) => if len ≤ rest.length then some (rest.take len, rest.drop len) else none
  | none => none

/-- Parse `n` length-prefixed witness items. -/
def parseItems : Nat → List Nat → Option (List (List Nat) × List Nat)
  | 0, bs => some ([], bs)
  | n + 1, bs =>
    match parseItem bs with
    | some (it, rest) =>
      match parseItems n rest with
      | some (its, rem) => some (it :: its, rem)
      | none => none
    | none => none

/-- Modelled from the spec: witness-stack deserialization from raw bytes;
fails on truncated data, non-canonical CompactSize, or trailing bytes. -/
def deserializeBytes (bs : List Nat) : Option (List (List Nat)) :=
  match parseCS bs with
  | some (cnt, rest) =>
    match parseItems cnt rest with
    | some (its, []) => some its
    | _ => none
  | none => none

/-- Modelled from the spec: `Witness.deserialize` base64-decodes then parses
the witness stack. -/
def deserialize (s : String) : Option (List (List Nat)) :=
  (b64Decode s).bind deserializeBytes

end Witness

/-! ## Networks, address scripts, transactions -/

inductive Network
  | mainnet
  | testnet
  | regtest
deriving DecidableEq

def b58VerP2PKH : Network → Nat
  | .mainnet => 0x00
  | _ => 0x6f

def b58VerP2SH : Network → Nat
  | .mainnet => 0x05
  | _ => 0xc4

def hrpOf : Network → String
  | .mainnet => "bc"
  | .testnet => "tb"
  | .regtest => "bcrt"

/-- Modelled from the spec: address decoding into a scriptPubKey is
delegated to the Bitcoin primitives library (`address.toOutputScript`);
this implements the standard base58check/bech32/bech32m address forms. -/
def toOutputScript (net : Network) (a : String) : Option (List Nat) :=
  match b58CheckDecode a with
  | some payload =>
    if payload.length = 21 then
      if payload.getD 0 0 = b58VerP2PKH net then
        some ([0x76, 0xa9, 0x14] ++ payload.drop 1 ++ [0x88, 0xac])
      else if payload.getD 0 0 = b58VerP2SH net then
        some ([0xa9, 0x14] ++ payload.drop 1 ++ [0x87])
      else none
    else none
  | none =>
    match segwitDecode (hrpOf net) a with
    | some (v, prog) =>
      if v = 0 then some (0x00 :: prog.length :: prog)
      else some ((0x50 + v) :: prog.length :: prog)
    | none => none

/-- Try the three networks in the order mainnet, testnet, regtest. -/
def toOutputScriptAny (a : String) : Option (List Nat) :=
  match toOutputScript .mainnet a with
  | some spk => some spk
  | none =>
    match toOutputScript .testnet a with
    | some spk => some spk
    | none => toOutputScript .regtest a

/-- Modelled from the spec: the verifier's malformed-address rejection uses
decodability on any of the three networks. -/
def isValidAddrModel (a : String) : Bool := (toOutputScriptAny a).isSome

/-- Modelled from the spec (§4.1): the BIP-322 message commitment hash. -/
def bip322MsgHash (msg : String) : List Nat := taggedHash "BIP0322-signed-message" (utf8 msg)

/-- Modelled from the spec (§4.5 step 3): the legacy signed-message digest. -/
def legacyMsgHash (msg : String) : List Nat :=
  sha256d (utf8 "\x18Bitcoin Signed Message:\n" ++ compactSize (utf8 msg).length ++ utf8 msg)

/-- Modelled from the spec (§3): the serialized `toSpend` transaction
(version 0, one null-outpoint input whose scriptSig pushes 0 and the
32-byte tagged hash, one zero-value output carrying the address script). -/
def serToSpend (msgHash spk : List Nat) : List Nat :=
  leBytes 4 0
    ++ [1]
    ++ List.replicate 32 0 ++ leBytes 4 0xffffffff
    ++ compactSize (2 + msgHash.length) ++ ([0x00, 0x20] ++ msgHash)
    ++ leBytes 4 0
    ++ [1]
    ++ leBytes 8 0
    ++ compactSize spk.length ++ spk
    ++ leBytes 4 0

/-- The `toSpend` transaction id in wire (little-endian) byte order. -/
def toSpendTxId (msgHash spk : List Nat) : List Nat := sha256d (serToSpend msgHash spk)

/-- Modelled from the spec: the BIP-143 (witness v0) sighash of input 0 of
the `toSign` transaction (version 0, locktime 0, single input spending
`(toSpendTxId, 0)` with sequence 0, single zero-value `OP_RETURN` output). -/
def bip143Digest (txid scriptCode : List Nat) (hashType : Nat) : List Nat :=
  let outpoint := txid ++ leBytes 4 0
  let hashPrevouts := sha256d outpoint
  let hashSequence := sha256d (leBytes 4 0)
  let hashOutputs := sha256d (leBytes 8 0 ++ [1, 0x6a])
  sha256d (leBytes 4 0 ++ hashPrevouts ++ hashSequence ++ outpoint
    ++ compactSize scriptCode.length ++ scriptCode
    ++ leBytes 8 0 ++ leBytes 4 0 ++ hashOutputs ++ leBytes 4 0 ++ leBytes 4 hashType)

/-- Modelled from the spec: the BIP-341 key-path sighash of input 0 of the
`toSign` transaction (no annex, no script path). -/
def bip341Digest (txid spk : List Nat) (hashType : Nat) : List Nat :=
  let shaPrevouts := sha256 (txid ++ leBytes 4 0)
  let shaAmounts := sha256 (leBytes 8 0)
  let shaScriptpubkeys := sha256 (compactSize spk.length ++ spk)
  let shaSequences := sha256 (leBytes 4 0)
  let shaOutputs := sha256 (leBytes 8 0 ++ [1, 0x6a])
  taggedHash "TapSighash"
    ([0x00, hashType] ++ leBytes 4 0 ++ leBytes 4 0
      ++ shaPrevouts ++ shaAmounts ++ shaScriptpubkeys ++ shaSequences ++ shaOutputs
      ++ [0x00] ++ leBytes 4 0)

/-! ## Derived addresses for the legacy (BIP-137) verifier -/

def p2pkhScript (keyHash : List Nat) : List Nat := [0x76, 0xa9, 0x14] ++ keyHash ++ [0x88, 0xac]

def p2pkhAddrOf (net : Network) (pk : List Nat) : String :=
  b58CheckEncode (b58VerP2PKH net :: hash160 pk)

def p2shP2wpkhAddrOf (net : Network) (pk : List Nat) : String :=
  b58CheckEncode (b58VerP2SH net :: hash160 (0x00 :: 0x14 :: hash160 pk))

def p2wpkhAddrOf (net : Network) (pk : List Nat) : String :=
  segwitEncode (hrpOf net) 0 (hash160 pk)

/-- Taproot output-key derivation: tweak the x-only internal key by
`TaggedHash("TapTweak", x)`; empty string when the key is invalid. -/
def p2trAddrOf (net : Network) (pk : List Nat) : String :=
  let xonly := pk.drop 1
  match liftXEven (natOfBE xonly) with
  | none => ""
  | some p =>
    let t := natOfBE (taggedHash "TapTweak" xonly)
    if t ≥ nF then ""
    else
      match toAffine (jAdd (jOfAffine p) (scmul t jG)) with
      | none => ""
      | some q => segwitEncode (hrpOf net) 1 (beBytes 32 q.1)

/-- Modelled from the spec (§4.5 step 5): every address derivable from the
recovered key — P2PKH from the compressed and uncompressed forms, and
P2SH-P2WPKH / P2WPKH / P2TR from the compressed form, for both networks. -/
def derivedAddresses (q : Nat × Nat) : List String :=
  let c := pubkeyCompress q
  let u := pubkeyUncompressed q
  [p2pkhAddrOf .mainnet c, p2pkhAddrOf .testnet c,
   p2pkhAddrOf .mainnet u, p2pkhAddrOf .testnet u,
   p2shP2wpkhAddrOf .mainnet c, p2shP2wpkhAddrOf .testnet c,
   p2wpkhAddrOf .mainnet c, p2wpkhAddrOf .testnet c,
   p2trAddrOf .mainnet c, p2trAddrOf .testnet c]

/-! ## The verifier (modelled from the spec) -/

/-- Typed failures raised by `verifySignature` (spec §7). -/
inductive VErr
  | invalidAddress
  | unsupportedAddress (msg : String)
  | malformedWitness
  | invalidSighash
  | invalidSchnorrSignature
  | invalidSignature
  | recoveryFailed
deriving DecidableEq

def unsupportedAddrMsg : String :=
  "Only P2WPKH, P2SH-P2WPKH, and single-key-spend P2TR BIP-322 verification is supported. Unsupported address is provided."

def scriptSpendMsg : String := "BIP-322 verification from script-spend P2TR is unsupported."

inductive AddrKind
  | p2pkh
  | p2sh
  | p2wpkh
  | p2wsh
  | p2tr
  | unsupported
deriving DecidableEq

/-- Modelled from the spec (§4.3): classification rules evaluated in order —
leading `1`/`m`/`n` is P2PKH, `3`/`2` is P2SH, `bc1q`/`tb1q` is witness v0
split into P2WPKH (22-byte script) and P2WSH (34-byte script), and
`bc1p`/`tb1p` is P2TR. -/
def classify (a : String) : AddrKind :=
  match a.data.head? with
  | none => .unsupported
  | some c =>
    if c = '1' ∨ c = 'm' ∨ c = 'n' then .p2pkh
    else if c = '3' ∨ c = '2' then .p2sh
    else if a.data.take 4 = "bc1q".data ∨ a.data.take 4 = "tb1q".data then
      match toOutputScriptAny a with
      | some spk =>
        if spk.length = 22 then .p2wpkh
        else if spk.length = 34 then .p2wsh
        else .unsupported
      | none => .unsupported
    else if a.data.take 4 = "bc1p".data ∨ a.data.take 4 = "tb1p".data then .p2tr
    else .unsupported

/-- Modelled from the spec (§4.5): the legacy BIP-137 verifier — recover the
public key from the 65-byte signature and test the address for membership in
the full derived-address set. -/
def verifyBIP137 (a msg : String) (bs : List Nat) : Except VErr Bool :=
  if bs.length ≠ 65 then .error .invalidSignature
  else if bs.getD 0 0 < 27 ∨ 42 < bs.getD 0 0 then .error .invalidSignature
  else
    let recId := (bs.getD 0 0 - 27) % 4
    let r := natOfBE ((bs.drop 1).take 32)
    let s := natOfBE (bs.drop 33)
    match ecdsaRecover (natOfBE (legacyMsgHash msg)) r s recId with
    | none => .error .recoveryFailed
    | some q => .ok ((derivedAddresses q).contains a)

/-- The witness-v0 ECDSA check shared by P2WPKH and P2SH-P2WPKH: validate the
DER signature over the BIP-143 digest and confirm the witness public key
hashes to the program committed by the address. -/
def checkSegwitV0 (msg : String) (spk program sigItem pk : List Nat) (nested : Bool) : Bool :=
  match derParse (sigItem.take (sigItem.length - 1)) with
  | none => false
  | some (r, s) =>
    match pubkeyParse pk with
    | none => false
    | some q =>
      let keyHash := hash160 pk
      let expected := if nested then hash160 (0x00 :: 0x14 :: keyHash) else keyHash
      let txid := toSpendTxId (bip322MsgHash msg) spk
      let digest := bip143Digest txid (p2pkhScript keyHash) 1
      ecdsaVerify (natOfBE digest) r s q && expected == program

/-- The taproot key-path Schnorr check over the BIP-341 digest. -/
def checkTaproot (msg : String) (spk program sig : List Nat) (hashType : Nat) : Bool :=
  let txid := toSpendTxId (bip322MsgHash msg) spk
  let digest := bip341Digest txid spk hashType
  schnorrVerify (natOfBE program) (natOfBE (sig.take 32)) (natOfBE (sig.drop 32)) digest

/-- Modelled from the spec (§4.6): the BIP-322 verifier — classify the
address, reject unsupported kinds, decode the witness, enforce its shape and
sighash rules, then run the type-appropriate cryptographic check. -/
def verifyBip322 (a msg : String) (wopt : Option (List (List Nat))) : Except VErr Bool :=
  match classify a with
  | .p2sh =>
    match wopt with
    | none => .error .malformedWitness
    | some items =>
      if ¬ (items.length = 2 ∧ (items.getD 1 []).length = 33
            ∧ ((items.getD 1 []).getD 0 0 = 2 ∨ (items.getD 1 []).getD 0 0 = 3)) then
        .error .malformedWitness
      else
        match (items.getD 0 []).getLast? with
        | none => .error .malformedWitness
        | some shb =>
          if shb ≠ 1 then .error .invalidSighash
          else
            match toOutputScriptAny a with
            | none => .error .invalidAddress
            | some spk =>
              .ok (checkSegwitV0 msg spk ((spk.drop 2).take 20) (items.getD 0 []) (items.getD 1 []) true)
  | .p2wpkh =>
    match wopt with
    | none => .error .malformedWitness
    | some items =>
      if ¬ (items.length = 2 ∧ (items.getD 1 []).length = 33
            ∧ ((items.getD 1 []).getD 0 0 = 2 ∨ (items.getD 1 []).getD 0 0 = 3)) then
        .error .malformedWitness
      else
        match (items.getD 0 []).getLast? with
        | none => .error .malformedWitness
        | some shb =>
          if shb ≠ 1 then .error .invalidSighash
          else
            match toOutputScriptAny a with
            | none => .error .invalidAddress
            | some spk =>
              .ok (checkSegwitV0 msg spk (spk.drop 2) (items.getD 0 []) (items.getD 1 []) false)
  | .p2tr =>
    match wopt with
    | none => .error .malformedWitness
    | some items =>
      if items.length ≠ 1 then .error (.unsupportedAddress scriptSpendMsg)
      else
        let w0 := items.getD 0 []
        match toOutputScriptAny a with
        | none => .error .invalidAddress
        | some spk =>
          if w0.length = 64 then .ok (checkTaproot msg spk (spk.drop 2) w0 0)
          else if w0.length = 65 then
            if w0.getLast? ≠ some 1 then .error .invalidSighash
            else .ok (checkTaproot msg spk (spk.drop 2) (w0.take 64) 1)
          else .error .invalidSchnorrSignature
  | _ => .error (.unsupportedAddress unsupportedAddrMsg)

/-- Whether decoded signature bytes have the legacy BIP-137 wire shape:
exactly 65 bytes with a header byte in `[27, 42]`. -/
def legacyShaped (bs : List Nat) : Bool :=
  bs.length = 65 && 27 ≤ bs.getD 0 0 && bs.getD 0 0 ≤ 42

/-- Modelled from the spec (§4.5/§4.6 and the observable behavior fixed by
§8): `verifySignature` — reject invalid addresses, route legacy-shaped
base64 signatures to the BIP-137 verifier and everything else to the
BIP-322 verifier. -/
def verifySignature (a msg sig : String) : Except VErr Bool :=
  if ¬ isValidAddrModel a then .error .invalidAddress
  else
    match b64Decode sig with
    | some bs =>
      if legacyShaped bs then verifyBIP137 a msg bs
      else verifyBip322 a msg (Witness.deserializeBytes bs)
    | none => verifyBip322 a msg none

/-! ## Structural/semantic split of the verifier, for the boundary contract -/

/-- The witness shape required on the ECDSA (P2WPKH / P2SH-P2WPKH) paths,
together with the SIGHASH_ALL trailing byte of the DER signature item. -/
def segwitV0ShapeOk (items : List (List Nat)) : Bool :=
  (items.length = 2 && (items.getD 1 []).length = 33
      && ((items.getD 1 []).getD 0 0 = 2 || (items.getD 1 []).getD 0 0 = 3))
    && (items.getD 0 []).getLast? == some 1

/-- The witness shape required on the taproot key-path: a single item of 64
bytes, or of 65 bytes ending in the SIGHASH_ALL byte. -/
def taprootShapeOk (items : List (List Nat)) : Bool :=
  items.length = 1 &&
    ((items.getD 0 []).length = 64
      || ((items.getD 0 []).length = 65 && (items.getD 0 []).getLast? == some 1))

/-- All structural checks of `verifySignature`: a decodable address, and on
the legacy path a recoverable key, on the BIP-322 path a supported address
kind with a well-shaped witness and a valid sighash/signature length. -/
def structOk (a msg sig : String) : Bool :=
  isValidAddrModel a &&
    (match b64Decode sig with
     | none => false
     | some bs =>
       if legacyShaped bs then
         (ecdsaRecover (natOfBE (legacyMsgHash msg)) (natOfBE ((bs.drop 1).take 32))
           (natOfBE (bs.drop 33)) ((bs.getD 0 0 - 27) % 4)).isSome
       else
         match Witness.deserializeBytes bs, classify a with
         | some items, .p2sh => segwitV0ShapeOk items
         | some items, .p2wpkh => segwitV0ShapeOk items
         | some items, .p2tr => taprootShapeOk items
         | _, _ => false)

/-- The semantic (cryptographic-match) outcome of `verifySignature`,
meaningful when `structOk` holds. -/
def cryptoMatch (a msg sig : String) : Bool :=
  match b64Decode sig with
  | none => false
  | some bs =>
    if legacyShaped bs then
      match ecdsaRecover (natOfBE (legacyMsgHash msg)) (natOfBE ((bs.drop 1).take 32))
          (natOfBE (bs.drop 33)) ((bs.getD 0 0 - 27) % 4) with
      | none => false
      | some q => (derivedAddresses q).contains a
    else
      match Witness.deserializeBytes bs, classify a with
      | some items, .p2sh =>
        match toOutputScriptAny a with
        | none => false
        | some spk => checkSegwitV0 msg spk ((spk.drop 2).take 20) (items.getD 0 []) (items.getD 1 []) true
      | some items, .p2wpkh =>
        match toOutputScriptAny a with
        | none => false
        | some spk => checkSegwitV0 msg spk (spk.drop 2) (items.getD 0 []) (items.getD 1 []) false
      | some items, .p2tr =>
        match toOutputScriptAny a with
        | none => false
        | some spk =>
          if (items.getD 0 []).length = 64 then checkTaproot msg spk (spk.drop 2) (items.getD 0 []) 0
          else checkTaproot msg spk (spk.drop 2) ((items.getD 0 []).take 64) 1
      | _, _ => false

/-! ## Embedding of `src/helpers/Address.ts` -/

/-- The `bitcoinjs-lib` payment decoders that `Address.ts` delegates to;
each returns the output script, or `none` where the library throws. -/
structure PaymentsLib where
  p2pkhOut : String → Network → Option (List Nat)
  p2shOut : String → Network → Option (List Nat)
  p2wpkhOut : String → Network → Option (List Nat)
  p2wshOut : String → Network → Option (List Nat)
  p2trOut : String → Network → Option (List Nat)

namespace Address

/-- Embedded from `Address.isP2PKH`: a pure test on the first character. -/
def isP2PKH (address : String) : Bool :=
  match address.data.head? with
  | some c => if c = '1' ∨ c = 'm' ∨ c = 'n' then true else false
  | none => false

/-- Embedded from `Address.isP2SH`: a pure test on the first character. -/
def isP2SH (address : String) : Bool :=
  match address.data.head? with
  | some c => if c = '3' ∨ c = '2' then true else false
  | none => false

/-- Embedded from `Address.isP2TR`: a pure test on the first four characters. -/
def isP2TR (address : String) : Bool :=
  if address.data.take 4 = "bc1p".data ∨ address.data.take 4 = "tb1p".data then true else false

/-- Embedded from `Address.convertAdressToScriptPubkey`: branch on the
leading characters, delegate to the matching payment decoder, and throw
`Unknown address type` when no branch applies. -/
def convertAdressToScriptPubkey (lib : PaymentsLib) (address : String) : Except String (List Nat) :=
  if address.data.head? = some '1' ∨ address.data.head? = some 'm' ∨ address.data.head? = some 'n' then
    match lib.p2pkhOut address (if address.data.head? = some '1' then .mainnet else .testnet) with
    | some out => .ok out
    | none => .error "bitcoinjs-lib"
  else if address.data.head? = some '3' ∨ address.data.head? = some '2' then
    match lib.p2shOut address (if address.data.head? = some '3' then .mainnet else .testnet) with
    | some out => .ok out
    | none => .error "bitcoinjs-lib"
  else if address.data.take 4 = "bc1q".data ∨ address.data.take 4 = "tb1q".data then
    if address.length = 42 then
      match lib.p2wpkhOut address (if address.data.take 4 = "bc1q".data then .mainnet else .testnet) with
      | some out => .ok out
      | none => .error "bitcoinjs-lib"
    else if address.length = 62 then
      match lib.p2wshOut address (if address.data.take 4 = "bc1q".data then .mainnet else .testnet) with
      | some out => .ok out
      | none => .error "bitcoinjs-lib"
    else .error "Unknown address type"
  else if address.data.take 4 = "bc1p".data ∨ address.data.take 4 = "tb1p".data then
    if address.length = 62 then
      match lib.p2trOut address (if address.data.take 4 = "bc1p".data then .mainnet else .testnet) with
      | some out => .ok out
      | none => .error "bitcoinjs-lib"
    else .error "Unknown address type"
  else .error "Unknown address type"

/-- Embedded from `Address.isP2WPKH`: on a `bc1q`/`tb1q` string, convert to
a scriptPubKey (which can throw) and test for the 22-byte P2WPKH length. -/
def isP2WPKH (lib : PaymentsLib) (address : String) : Except String Bool :=
  if address.data.take 4 = "bc1q".data ∨ address.data.take 4 = "tb1q".data then
    match convertAdressToScriptPubkey lib address with
    | .ok spk => .ok (if spk.length = 22 then true else false)
    | .error e => .error e
  else .ok false

/-- Embedded from `Address.isP2WPKHWitness`: exactly two items, the second a
33-byte buffer whose first byte is 0x02 or 0x03. -/
def isP2WPKHWitness (witness : List (List Nat)) : Bool :=
  if witness.length = 2 ∧ (witness.getD 1 []).length = 33
      ∧ ((witness.getD 1 []).getD 0 0 = 0x02 ∨ (witness.getD 1 []).getD 0 0 = 0x03) then
    true
  else false

/-- Embedded from `Address.isSingleKeyP2TRWitness`: exactly one item. -/
def isSingleKeyP2TRWitness (witness : List (List Nat)) : Bool :=
  if witness.length = 1 then true else false

/-- Embedded from `Address.isValidBitcoinAddress`: try decoding on mainnet,
then testnet, then regtest, returning `true` on the first success. -/
def isValidBitcoinAddress (toOut : Network → String → Option (List Nat)) (address : String) : Bool :=
  match toOut .mainnet address with
  | some _ => true
  | none =>
    match toOut .testnet address with
    | some _ => true
    | none =>
      match toOut .regtest address with
      | some _ => true
      | none => false

end Address

/-! ## Claim theorems -/

/-- C8: `isP2WPKHWitness` holds exactly on stacks of two items whose second
item is 33 bytes long starting with 0x02 or 0x03, `isSingleKeyP2TRWitness`
holds exactly on one-item stacks, and neither predicate inspects the
contents of the first item. -/
theorem c8_witness_shape_predicates :
    (∀ w : List (List Nat),
      (Address.isP2WPKHWitness w = true ↔
        w.length = 2 ∧ (w.getD 1 []).length = 33
          ∧ ((w.getD 1 []).getD 0 0 = 0x02 ∨ (w.getD 1 []).getD 0 0 = 0x03))
      ∧ (Address.isSingleKeyP2TRWitness w = true ↔ w.length = 1))
    ∧ (∀ (x y : List Nat) (rest : List (List Nat)),
      Address.isP2WPKHWitness (x :: rest) = Address.isP2WPKHWitness (y :: rest)
      ∧ Address.isSingleKeyP2TRWitness (x :: rest) = Address.isSingleKeyP2TRWitness (y :: rest)) := by
  constructor
  · intro w
    constructor
    · simp [Address.isP2WPKHWitness]
    · simp [Address.isSingleKeyP2TRWitness]
  · intro x y rest
    constructor
    · simp [Address.isP2WPKHWitness]
    · simp [Address.isSingleKeyP2TRWitness]

/-- C8 witness: the predicates evaluated on concrete stacks through the
theorem. -/
theorem c8_witness_shape_predicates_witness :
    Address.isP2WPKHWitness [[0x30, 0x01], 0x02 :: List.replicate 32 0] = true
      ∧ Address.isSingleKeyP2TRWitness [List.replicate 64 0] = true := by
  refine ⟨((c8_witness_shape_predicates.1 _).1).mpr (by decide), ?_⟩
  exact ((c8_witness_shape_predicates.1 _).2).mpr (by decide)

/-- C9: `isValidBitcoinAddress` tries mainnet, then testnet, then regtest,
returns `true` exactly when some network decodes the address, and is a total
boolean function (decoder failures are `none`, never propagated). -/
theorem c9_isValidBitcoinAddress_tries_all_networks :
    ∀ (toOut : Network → String → Option (List Nat)) (a : String),
      Address.isValidBitcoinAddress toOut a =
        ((toOut .mainnet a).isSome || ((toOut .testnet a).isSome || (toOut .regtest a).isSome)) := by
  intro toOut a
  unfold Address.isValidBitcoinAddress
  cases toOut .mainnet a <;> cases toOut .testnet a <;> cases toOut .regtest a <;> simp

theorem head_eq_of_take4 (l : List Char) (c1 c2 c3 c4 : Char) (h : l.take 4 = [c1, c2, c3, c4]) :
    l.head? = some c1 := by
  cases l with
  | nil => simp at h
  | cons a t =>
    simp only [List.take_succ_cons, List.cons.injEq] at h
    simp [h.1]

/-- C10: on a `bc1q`/`tb1q` string, a length other than 42 or 62 makes
`convertAdressToScriptPubkey` throw `Unknown address type`, and whenever the
conversion throws, `isP2WPKH` propagates the exception instead of returning
a boolean — unlike the purely character-based `isP2PKH`/`isP2SH`/`isP2TR`. -/
theorem c10_isP2WPKH_partiality :
    ∀ (lib : PaymentsLib) (a : String),
      (a.data.take 4 = "bc1q".data ∨ a.data.take 4 = "tb1q".data) →
      (a.length ≠ 42 → a.length ≠ 62 →
        Address.convertAdressToScriptPubkey lib a = .error "Unknown address type")
      ∧ (∀ e, Address.convertAdressToScriptPubkey lib a = .error e →
          Address.isP2WPKH lib a = .error e) := by
  intro lib a hp
  have hb : a.data.head? = some 'b' ∨ a.data.head? = some 't' := by
    rcases hp with h | h
    · exact .inl (head_eq_of_take4 _ _ _ _ _ h)
    · exact .inr (head_eq_of_take4 _ _ _ _ _ h)
  constructor
  · intro h42 h62
    unfold Address.convertAdressToScriptPubkey
    rcases hb with hb | hb <;> simp [hb, hp, h42, h62]
  · intro e he
    unfold Address.isP2WPKH
    simp [hp, he]

/-- C10 witness: with decoders that always fail, a short `bc1q` string makes
the conversion and `isP2WPKH` throw. -/
theorem c10_isP2WPKH_partiality_witness :
    Address.isP2WPKH
        ⟨fun _ _ => none, fun _ _ => none, fun _ _ => none, fun _ _ => none, fun _ _ => none⟩
        "bc1qqqqq" = .error "Unknown address type" := by
  have h := c10_isP2WPKH_partiality
    ⟨fun _ _ => none, fun _ _ => none, fun _ _ => none, fun _ _ => none, fun _ _ => none⟩
    "bc1qqqqq" (.inl (by decide))
  exact h.2 _ (h.1 (by decide) (by decide))

theorem verify_dispatch_bip322 (a m s : String) (bs : List Nat)
    (hv : isValidAddrModel a = true) (hd : b64Decode s = some bs)
    (hl : legacyShaped bs = false) :
    verifySignature a m s = verifyBip322 a m (Witness.deserializeBytes bs) := by
  unfold verifySignature
  rw [hd]
  simp [hv, hl]

theorem verify_dispatch_none (a m s : String)
    (hv : isValidAddrModel a = true) (hd : b64Decode s = none) :
    verifySignature a m s = verifyBip322 a m none := by
  unfold verifySignature
  rw [hd]
  simp [hv]

theorem verify_dispatch_legacy (a m s : String) (bs : List Nat)
    (hv : isValidAddrModel a = true) (hd : b64Decode s = some bs)
    (hl : legacyShaped bs = true) :
    verifySignature a m s = verifyBIP137 a m bs := by
  unfold verifySignature
  rw [hd]
  simp [hv, hl]

/-- C5: for every decodable P2WSH address the verifier raises the
unsupported-address error, and for every P2TR address whose witness stack
holds two or more items it raises the script-spend-unsupported error,
whatever the message. -/
theorem c5_p2wsh_and_script_spend_rejected :
    ∀ (a m s : String),
      isValidAddrModel a = true →
      (∀ bs, b64Decode s = some bs → legacyShaped bs = false) →
      (classify a = .p2wsh →
        verifySignature a m s = .error (.unsupportedAddress unsupportedAddrMsg))
      ∧ (∀ items, classify a = .p2tr → Witness.deserialize s = some items →
          2 ≤ items.length →
          verifySignature a m s = .error (.unsupportedAddress scriptSpendMsg)) := by
  intro a m s hv hnl
  constructor
  · intro hc
    cases hd : b64Decode s with
    | none =>
      rw [verify_dispatch_none a m s hv hd]
      unfold verifyBip322
      rw [hc]
    | some bs =>
      rw [verify_dispatch_bip322 a m s bs hv hd (hnl bs hd)]
      unfold verifyBip322
      rw [hc]
  · intro items hc hds hlen
    unfold Witness.deserialize at hds
    cases hd : b64Decode s with
    | none => rw [hd] at hds; simp at hds
    | some bs =>
      rw [hd] at hds
      simp only [Option.some_bind] at hds
      rw [verify_dispatch_bip322 a m s bs hv hd (hnl bs hd)]
      unfold verifyBip322
      rw [hc, hds]
      have : items.length ≠ 1 := by omega
      simp [this]

theorem not_legacy_of_decode {s : String} {v : List Nat}
    (hv : b64Decode s = some v) (hlv : legacyShaped v = false) :
    ∀ bs, b64Decode s = some bs → legacyShaped bs = false := by
  intro bs hd
  rw [hv] at hd
  rw [← Option.some.inj hd]
  exact hlv

/-- C5 witness: the P2WSH test address is refused, and a P2TR address with a
three-item (script-path) witness is refused as a script spend. -/
theorem c5_p2wsh_and_script_spend_rejected_witness :
    verifySignature "bc1qrp33g0q5c5txsp9arysrx4k6zdkfs4nce4xj0gdcccefvpysxf3qccfmv3" "" "AgEBAQE="
        = .error (.unsupportedAddress unsupportedAddrMsg)
      ∧ verifySignature "bc1p3r88nsysd8sv555nur4h85wdupa5z0xpcgcdjxy5up30re8gcneswrkwkv" "" "AwEBAQEBAQ=="
        = .error (.unsupportedAddress scriptSpendMsg) := by
  constructor
  · exact (c5_p2wsh_and_script_spend_rejected _ "" _ (by decide)
      (not_legacy_of_decode (v := [2, 1, 1, 1, 1]) (by decide) (by decide))).1 (by decide)
  · exact (c5_p2wsh_and_script_spend_rejected _ "" _ (by decide)
      (not_legacy_of_decode (v := [3, 1, 1, 1, 1, 1, 1]) (by decide) (by decide))).2 [[1], [1], [1]]
      (by decide) (by decide) (by decide)

/-- C6: on a single-item P2TR witness, an item length other than 64 or 65
raises the invalid-Schnorr-signature error, and a 65-byte item whose
trailing sighash byte differs from SIGHASH_ALL raises the invalid-sighash
error. -/
theorem c6_p2tr_length_and_sighash_enforcement :
    ∀ (a m s : String) (items : List (List Nat)),
      isValidAddrModel a = true →
      (∀ bs, b64Decode s = some bs → legacyShaped bs = false) →
      classify a = .p2tr →
      Witness.deserialize s = some items →
      items.length = 1 →
      ((items.getD 0 []).length ≠ 64 → (items.getD 0 []).length ≠ 65 →
        verifySignature a m s = .error .invalidSchnorrSignature)
      ∧ ((items.getD 0 []).length = 65 → (items.getD 0 []).getLast? ≠ some 1 →
        verifySignature a m s = .error .invalidSighash) := by
  intro a m s items hv hnl hc hds hlen
  unfold Witness.deserialize at hds
  cases hd : b64Decode s with
  | none => rw [hd] at hds; simp at hds
  | some bs =>
    rw [hd] at hds
    simp only [Option.some_bind] at hds
    rw [verify_dispatch_bip322 a m s bs hv hd (hnl bs hd)]
    unfold verifyBip322
    rw [hc, hds]
    obtain ⟨spk, hspk⟩ : ∃ spk, toOutputScriptAny a = some spk := by
      unfold isValidAddrModel at hv
      cases hsp : toOutputScriptAny a with
      | none => rw [hsp] at hv; simp at hv
      | some spk => exact ⟨spk, rfl⟩
    obtain ⟨x, rfl⟩ : ∃ x, items = [x] := by
      cases items with
      | nil => simp at hlen
      | cons x t =>
        cases t with
        | nil => exact ⟨x, rfl⟩
        | cons y u => simp at hlen
    constructor
    · intro h64 h65
      simp only [List.getD_cons_zero] at h64 h65
      simp [hspk, h64, h65]
    · intro h65 hlast
      simp only [List.getD_cons_zero] at h65 hlast
      have h64 : x.length ≠ 64 := by omega
      simp [hspk, h64, h65, hlast]

/-- C6 witness: appending a byte to the 65-byte taproot witness item of the
published vector (66 bytes) is rejected as an invalid Schnorr signature. -/
theorem c6_p2tr_length_and_sighash_enforcement_witness :
    verifySignature "bc1ppv609nr0vr25u07u95waq5lucwfm6tde4nydujnu8npg4q75mr5sxq8lt3" "Hello World"
        (Witness.serialize [List.replicate 66 7]) = .error .invalidSchnorrSignature := by
  exact (c6_p2tr_length_and_sighash_enforcement _ "Hello World" _ [List.replicate 66 7]
    (by decide)
    (not_legacy_of_decode (v := Witness.serializeBytes [List.replicate 66 7]) (by decide) (by decide))
    (by decide) (by decide) (by decide)).1 (by decide) (by decide)

/-- C3: replacing the header byte of a legacy-shaped signature by any
header in `[27, 42]` congruent to it modulo 4 leaves the result of
`verifySignature` unchanged, for every address and message — the header's
address-type hint never affects the outcome. -/
theorem c3_header_class_equivalence :
    ∀ (a m s1 s2 : String) (bs : List Nat) (h : Nat),
      b64Decode s1 = some bs →
      legacyShaped bs = true →
      b64Decode s2 = some (h :: bs.tail) →
      27 ≤ h → h ≤ 42 →
      ((h : Int) - (bs.getD 0 0 : Int)) % 4 = 0 →
      verifySignature a m s2 = verifySignature a m s1 := by
  intro a m s1 s2 bs h hd1 hl1 hd2 h27 h42 hcong
  simp only [legacyShaped, Bool.and_eq_true, decide_eq_true_eq] at hl1
  obtain ⟨⟨hlen, hh27⟩, hh42⟩ := hl1
  cases bs with
  | nil => simp at hlen
  | cons b0 t =>
    simp only [List.getD_cons_zero] at hh27 hh42 hcong
    simp only [List.length_cons] at hlen
    have htl : t.length = 64 := by omega
    have hl1b : legacyShaped (b0 :: t) = true := by
      simp [legacyShaped, hh27, hh42, htl]
    have hl2 : legacyShaped (h :: t) = true := by
      simp [legacyShaped, h27, h42, htl]
    by_cases hv : isValidAddrModel a
    · simp only [List.tail_cons] at hd2
      rw [verify_dispatch_legacy a m s2 (h :: t) hv hd2 hl2,
        verify_dispatch_legacy a m s1 (b0 :: t) hv hd1 hl1b]
      unfold verifyBIP137
      have hrec : (h - 27) % 4 = (b0 - 27) % 4 := by omega
      simp [htl, hrec, hh27, hh42, h27, h42, Nat.not_lt.mpr]
    · unfold verifySignature
      simp [hv]

/-- C3 witness: the test-suite BIP-137 signature with header 32 and its
header-40 variant hit the same verifier result. -/
theorem c3_header_class_equivalence_witness :
    verifySignature "1QDZfWJTVXqHFmJFRkyrnidvHyPyG5bynY" "Hello World"
        "KAtVrymJqo43BCt9f7Dhl6ET4Gg3SmhyvdlW6wn9iWc9PweD7tNM5+qw7xE9/bzlw/Et789AQ2F59YKEnSzQudo="
      = verifySignature "1QDZfWJTVXqHFmJFRkyrnidvHyPyG5bynY" "Hello World"
        "IAtVrymJqo43BCt9f7Dhl6ET4Gg3SmhyvdlW6wn9iWc9PweD7tNM5+qw7xE9/bzlw/Et789AQ2F59YKEnSzQudo=" := by
  exact c3_header_class_equivalence _ _ _ _
    [32, 11, 85, 175, 41, 137, 170, 142, 55, 4, 43, 125, 127, 176, 225, 151, 161, 19, 224, 104,
     55, 74, 104, 114, 189, 217, 86, 235, 9, 253, 137, 103, 61, 63, 7, 131, 238, 211, 76, 231,
     234, 176, 239, 17, 61, 253, 188, 229, 195, 241, 45, 239, 207, 64, 67, 97, 121, 245, 130,
     132, 157, 44, 208, 185, 218] 40
    (by decide) (by decide) (by decide) (by decide) (by decide) (by decide)

/-- C4: for a legacy-shaped signature whose key recovery succeeds,
`verifySignature` on any decodable address returns exactly the membership
of that address in the set derived from the recovered key (P2PKH in both
key forms, P2SH-P2WPKH, P2WPKH and P2TR, on mainnet and testnet) — `true`
on every derived address, `false` on every other. -/
theorem c4_legacy_derived_address_set :
    ∀ (a m s : String) (bs : List Nat) (q : Nat × Nat),
      b64Decode s = some bs →
      legacyShaped bs = true →
      ecdsaRecover (natOfBE (legacyMsgHash m)) (natOfBE ((bs.drop 1).take 32))
          (natOfBE (bs.drop 33)) ((bs.getD 0 0 - 27) % 4) = some q →
      isValidAddrModel a = true →
      verifySignature a m s = .ok ((derivedAddresses q).contains a) := by
  intro a m s bs q hd hl hr hv
  rw [verify_dispatch_legacy a m s bs hv hd hl]
  simp only [legacyShaped, Bool.and_eq_true, decide_eq_true_eq] at hl
  obtain ⟨⟨hlen, hh27⟩, hh42⟩ := hl
  unfold verifyBIP137
  rw [if_neg (by omega), if_neg (by omega)]
  simp only [hr]

/-- The 65 bytes of the test-suite BIP-137 signature (header 32). -/
def sig137Bytes : List Nat :=
  [32, 11, 85, 175, 41, 137, 170, 142, 55, 4, 43, 125, 127, 176, 225, 151, 161, 19, 224, 104,
   55, 74, 104, 114, 189, 217, 86, 235, 9, 253, 137, 103, 61, 63, 7, 131, 238, 211, 76, 231,
   234, 176, 239, 17, 61, 253, 188, 229, 195, 241, 45, 239, 207, 64, 67, 97, 121, 245, 130,
   132, 157, 44, 208, 185, 218]

/-- The public key recovered from `sig137Bytes` over message `Hello World`. -/
def sig137Key : Nat × Nat :=
  (112164800661774329764479470221062423027988001769590756231360727406930713627388,
   68028103999028025238357768215304841585209049432224227001324801509900163072440)

/-- C4 witness: the recovered key's compressed-form P2PKH address verifies
`true`, and an unrelated valid P2PKH address verifies `false`. -/
theorem c4_legacy_derived_address_set_witness :
    verifySignature "1QDZfWJTVXqHFmJFRkyrnidvHyPyG5bynY" "Hello World"
        "IAtVrymJqo43BCt9f7Dhl6ET4Gg3SmhyvdlW6wn9iWc9PweD7tNM5+qw7xE9/bzlw/Et789AQ2F59YKEnSzQudo="
      = .ok true
    ∧ verifySignature "1F3sAm6ZtwLAUnj7d38pGFxtP3RVEvtsbV" "Hello World"
        "IAtVrymJqo43BCt9f7Dhl6ET4Gg3SmhyvdlW6wn9iWc9PweD7tNM5+qw7xE9/bzlw/Et789AQ2F59YKEnSzQudo="
      = .ok false := by
  have hr : ecdsaRecover (natOfBE (legacyMsgHash "Hello World"))
      (natOfBE ((sig137Bytes.drop 1).take 32)) (natOfBE (sig137Bytes.drop 33))
      ((sig137Bytes.getD 0 0 - 27) % 4) = some sig137Key := by decide
  constructor
  · rw [c4_legacy_derived_address_set _ _ _ sig137Bytes sig137Key
      (by decide) (by decide) hr (by decide)]
    rfl
  · rw [c4_legacy_derived_address_set _ _ _ sig137Bytes sig137Key
      (by decide) (by decide) hr (by decide)]
    rfl

theorem exists_spk_of_valid {a : String} (hv : isValidAddrModel a = true) :
    ∃ spk, toOutputScriptAny a = some spk := by
  unfold isValidAddrModel at hv
  cases hsp : toOutputScriptAny a with
  | none => rw [hsp] at hv; simp at hv
  | some spk => exact ⟨spk, rfl⟩

theorem bip322_none_err (a m : String) : ∃ e, verifyBip322 a m none = .error e := by
  unfold verifyBip322
  cases classify a <;> exact ⟨_, rfl⟩

theorem segwitV0ShapeOk_iff (items : List (List Nat)) :
    segwitV0ShapeOk items = true ↔
      (items.length = 2 ∧ (items.getD 1 []).length = 33
        ∧ ((items.getD 1 []).getD 0 0 = 2 ∨ (items.getD 1 []).getD 0 0 = 3))
      ∧ (items.getD 0 []).getLast? = some 1 := by
  simp [segwitV0ShapeOk]
  tauto

theorem taprootShapeOk_iff (items : List (List Nat)) :
    taprootShapeOk items = true ↔
      items.length = 1 ∧ ((items.getD 0 []).length = 64
        ∨ ((items.getD 0 []).length = 65 ∧ (items.getD 0 []).getLast? = some 1)) := by
  simp [taprootShapeOk]

/-- C1: the boundary contract of `verifySignature` — whenever every
structural check passes the result is the boolean cryptographic-match
outcome (so a well-formed but non-matching signature yields `false` and
never raises), and whenever some structural check fails a typed error is
raised. -/
theorem c1_boundary_contract :
    ∀ (a m s : String),
      (structOk a m s = true → verifySignature a m s = .ok (cryptoMatch a m s))
      ∧ (structOk a m s = false → ∃ e, verifySignature a m s = .error e) := by
  intro a m s
  by_cases hv : isValidAddrModel a = true
  case neg =>
    have hvf : isValidAddrModel a = false := by
      cases hb : isValidAddrModel a
      · rfl
      · exact absurd hb hv
    have hS : structOk a m s = false := by
      unfold structOk
      rw [hvf]
      rfl
    refine ⟨fun h => absurd (hS ▸ h) (by simp), fun _ => ⟨.invalidAddress, ?_⟩⟩
    unfold verifySignature
    rw [if_pos hv]
  case pos =>
    cases hd : b64Decode s with
    | none =>
      have hS : structOk a m s = false := by
        unfold structOk
        rw [hv]
        simp only [hd, Bool.true_and]
      exact ⟨fun h => absurd (hS ▸ h) (by simp),
        fun _ => by rw [verify_dispatch_none a m s hv hd]; exact bip322_none_err a m⟩
    | some bs =>
      cases hl : legacyShaped bs with
      | true =>
        have hfacts := hl
        simp only [legacyShaped, Bool.and_eq_true, decide_eq_true_eq] at hfacts
        obtain ⟨⟨hlen, hh27⟩, hh42⟩ := hfacts
        rw [verify_dispatch_legacy a m s bs hv hd hl]
        unfold verifyBIP137
        rw [if_neg (by omega), if_neg (by omega)]
        cases hr : ecdsaRecover (natOfBE (legacyMsgHash m)) (natOfBE ((bs.drop 1).take 32))
            (natOfBE (bs.drop 33)) ((bs.getD 0 0 - 27) % 4) with
        | none =>
          have hS : structOk a m s = false := by
            unfold structOk
            rw [hv]
            simp only [hd, Bool.true_and]
            rw [if_pos hl]
            simp only [hr, Option.isSome_none]
          exact ⟨fun h => absurd (hS ▸ h) (by simp),
            fun _ => ⟨.recoveryFailed, by simp only [hr]⟩⟩
        | some q =>
          have hS : structOk a m s = true := by
            unfold structOk
            rw [hv]
            simp only [hd, Bool.true_and]
            rw [if_pos hl]
            simp only [hr, Option.isSome_some]
          refine ⟨fun _ => ?_, fun h => absurd (hS ▸ h) (by simp)⟩
          simp only [hr]
          unfold cryptoMatch
          simp only [hd]
          rw [if_pos hl]
          simp only [hr]
      | false =>
        have hlf : ¬ legacyShaped bs = true := by simp [hl]
        rw [verify_dispatch_bip322 a m s bs hv hd hl]
        cases hw : Witness.deserializeBytes bs with
        | none =>
          have hS : structOk a m s = false := by
            unfold structOk
            rw [hv]
            simp only [hd, Bool.true_and]
            rw [if_neg hlf]
            simp only [hw]
          exact ⟨fun h => absurd (hS ▸ h) (by simp), fun _ => bip322_none_err a m⟩
        | some items =>
          obtain ⟨spk, hspk⟩ := exists_spk_of_valid hv
          have hSmk : structOk a m s =
              (match classify a with
               | .p2sh => segwitV0ShapeOk items
               | .p2wpkh => segwitV0ShapeOk items
               | .p2tr => taprootShapeOk items
               | _ => false) := by
            unfold structOk
            rw [hv]
            simp only [hd, Bool.true_and]
            rw [if_neg hlf]
            simp only [hw]
            cases classify a <;> rfl
          cases hc : classify a with
          | p2pkh =>
            have hS : structOk a m s = false := by rw [hSmk, hc]
            exact ⟨fun h => absurd (hS ▸ h) (by simp),
              fun _ => ⟨_, by unfold verifyBip322; rw [hc]⟩⟩
          | p2wsh =>
            have hS : structOk a m s = false := by rw [hSmk, hc]
            exact ⟨fun h => absurd (hS ▸ h) (by simp),
              fun _ => ⟨_, by unfold verifyBip322; rw [hc]⟩⟩
          | unsupported =>
            have hS : structOk a m s = false := by rw [hSmk, hc]
            exact ⟨fun h => absurd (hS ▸ h) (by simp),
              fun _ => ⟨_, by unfold verifyBip322; rw [hc]⟩⟩
          | p2sh =>
            have hS : structOk a m s = segwitV0ShapeOk items := by rw [hSmk, hc]
            by_cases hP : items.length = 2 ∧ (items.getD 1 []).length = 33
                ∧ ((items.getD 1 []).getD 0 0 = 2 ∨ (items.getD 1 []).getD 0 0 = 3)
            · cases hgl : (items.getD 0 []).getLast? with
              | none =>
                have hS2 : structOk a m s = false := by
                  rw [hS]
                  cases hB : segwitV0ShapeOk items
                  · rfl
                  · have h2 := ((segwitV0ShapeOk_iff items).mp hB).2
                    rw [hgl] at h2
                    exact absurd h2 (by simp)
                refine ⟨fun h => absurd (hS2 ▸ h) (by simp), fun _ => ⟨.malformedWitness, ?_⟩⟩
                unfold verifyBip322
                rw [hc]
                simp only [if_neg (not_not_intro hP), hgl]
              | some shb =>
                by_cases hshb : shb = 1
                · have hS2 : structOk a m s = true := by
                    rw [hS]
                    exact (segwitV0ShapeOk_iff items).mpr ⟨hP, by rw [hgl, hshb]⟩
                  refine ⟨fun _ => ?_, fun h => absurd (hS2 ▸ h) (by simp)⟩
                  unfold verifyBip322
                  rw [hc]
                  simp only [if_neg (not_not_intro hP), hgl, if_neg (not_not_intro hshb), hspk]
                  unfold cryptoMatch
                  simp only [hd]
                  rw [if_neg hlf]
                  simp only [hw, hc, hspk]
                · have hS2 : structOk a m s = false := by
                    rw [hS]
                    cases hB : segwitV0ShapeOk items
                    · rfl
                    · have h2 := ((segwitV0ShapeOk_iff items).mp hB).2
                      rw [hgl] at h2
                      exact absurd (Option.some.inj h2) hshb
                  refine ⟨fun h => absurd (hS2 ▸ h) (by simp), fun _ => ⟨.invalidSighash, ?_⟩⟩
                  unfold verifyBip322
                  rw [hc]
                  simp only [if_neg (not_not_intro hP), hgl, if_pos hshb]
            · have hS2 : structOk a m s = false := by
                rw [hS]
                cases hB : segwitV0ShapeOk items
                · rfl
                · exact absurd ((segwitV0ShapeOk_iff items).mp hB).1 hP
              refine ⟨fun h => absurd (hS2 ▸ h) (by simp), fun _ => ⟨.malformedWitness, ?_⟩⟩
              unfold verifyBip322
              rw [hc]
              simp only [if_pos hP]
          | p2wpkh =>
            have hS : structOk a m s = segwitV0ShapeOk items := by rw [hSmk, hc]
            by_cases hP : items.length = 2 ∧ (items.getD 1 []).length = 33
                ∧ ((items.getD 1 []).getD 0 0 = 2 ∨ (items.getD 1 []).getD 0 0 = 3)
            · cases hgl : (items.getD 0 []).getLast? with
              | none =>
                have hS2 : structOk a m s = false := by
                  rw [hS]
                  cases hB : segwitV0ShapeOk items
                  · rfl
                  · have h2 := ((segwitV0ShapeOk_iff items).mp hB).2
                    rw [hgl] at h2
                    exact absurd h2 (by simp)
                refine ⟨fun h => absurd (hS2 ▸ h) (by simp), fun _ => ⟨.malformedWitness, ?_⟩⟩
                unfold verifyBip322
                rw [hc]
                simp only [if_neg (not_not_intro hP), hgl]
              | some shb =>
                by_cases hshb : shb = 1
                · have hS2 : structOk a m s = true := by
                    rw [hS]
                    exact (segwitV0ShapeOk_iff items).mpr ⟨hP, by rw [hgl, hshb]⟩
                  refine ⟨fun _ => ?_, fun h => absurd (hS2 ▸ h) (by simp)⟩
                  unfold verifyBip322
                  rw [hc]
                  simp only [if_neg (not_not_intro hP), hgl, if_neg (not_not_intro hshb), hspk]
                  unfold cryptoMatch
                  simp only [hd]
                  rw [if_neg hlf]
                  simp only [hw, hc, hspk]
                · have hS2 : structOk a m s = false := by
                    rw [hS]
                    cases hB : segwitV0ShapeOk items
                    · rfl
                    · have h2 := ((segwitV0ShapeOk_iff items).mp hB).2
                      rw [hgl] at h2
                      exact absurd (Option.some.inj h2) hshb
                  refine ⟨fun h => absurd (hS2 ▸ h) (by simp), fun _ => ⟨.invalidSighash, ?_⟩⟩
                  unfold verifyBip322
                  rw [hc]
                  simp only [if_neg (not_not_intro hP), hgl, if_pos hshb]
            · have hS2 : structOk a m s = false := by
                rw [hS]
                cases hB : segwitV0ShapeOk items
                · rfl
                · exact absurd ((segwitV0ShapeOk_iff items).mp hB).1 hP
              refine ⟨fun h => absurd (hS2 ▸ h) (by simp), fun _ => ⟨.malformedWitness, ?_⟩⟩
              unfold verifyBip322
              rw [hc]
              simp only [if_pos hP]
          | p2tr =>
            have hS : structOk a m s = taprootShapeOk items := by rw [hSmk, hc]
            by_cases h1 : items.length = 1
            · by_cases h64 : (items.getD 0 []).length = 64
              · have hS2 : structOk a m s = true := by
                  rw [hS]
                  exact (taprootShapeOk_iff items).mpr ⟨h1, .inl h64⟩
                refine ⟨fun _ => ?_, fun h => absurd (hS2 ▸ h) (by simp)⟩
                unfold verifyBip322
                rw [hc]
                simp only [if_neg (not_not_intro h1), hspk, if_pos h64]
                unfold cryptoMatch
                simp only [hd]
                rw [if_neg hlf]
                simp only [hw, hc, hspk, if_pos h64]
              · by_cases h65 : (items.getD 0 []).length = 65
                · by_cases hL : (items.getD 0 []).getLast? = some 1
                  · have hS2 : structOk a m s = true := by
                      rw [hS]
                      exact (taprootShapeOk_iff items).mpr ⟨h1, .inr ⟨h65, hL⟩⟩
                    refine ⟨fun _ => ?_, fun h => absurd (hS2 ▸ h) (by simp)⟩
                    unfold verifyBip322
                    rw [hc]
                    simp only [if_neg (not_not_intro h1), hspk, if_neg h64, if_pos h65,
                      if_neg (not_not_intro hL)]
                    unfold cryptoMatch
                    simp only [hd]
                    rw [if_neg hlf]
                    simp only [hw, hc, hspk, if_neg h64]
                  · have hS2 : structOk a m s = false := by
                      rw [hS]
                      cases hB : taprootShapeOk items
                      · rfl
                      · rcases ((taprootShapeOk_iff items).mp hB).2 with h | h
                        · exact absurd h h64
                        · exact absurd h.2 hL
                    refine ⟨fun h => absurd (hS2 ▸ h) (by simp), fun _ => ⟨.invalidSighash, ?_⟩⟩
                    unfold verifyBip322
                    rw [hc]
                    simp only [if_neg (not_not_intro h1), hspk, if_neg h64, if_pos h65, if_pos hL]
                · have hS2 : structOk a m s = false := by
                    rw [hS]
                    cases hB : taprootShapeOk items
                    · rfl
                    · rcases ((taprootShapeOk_iff items).mp hB).2 with h | h
                      · exact absurd h h64
                      · exact absurd h.1 h65
                  refine ⟨fun h => absurd (hS2 ▸ h) (by simp),
                    fun _ => ⟨.invalidSchnorrSignature, ?_⟩⟩
                  unfold verifyBip322
                  rw [hc]
                  simp only [if_neg (not_not_intro h1), hspk, if_neg h64, if_neg h65]
            · have hS2 : structOk a m s = false := by
                rw [hS]
                cases hB : taprootShapeOk items
                · rfl
                · exact absurd ((taprootShapeOk_iff items).mp hB).1 h1
              refine ⟨fun h => absurd (hS2 ▸ h) (by simp),
                fun _ => ⟨.unsupportedAddress scriptSpendMsg, ?_⟩⟩
              unfold verifyBip322
              rw [hc]
              simp only [if_pos h1]

/-- C1 witness: a structurally well-formed P2WPKH witness whose DER
signature is cryptographic garbage yields `ok false`, not an error. -/
theorem c1_boundary_contract_witness :
    structOk "bc1q9vza2e8x573nczrlzms0wvx3gsqjx7vavgkx0l" "msg"
        "AgIBASECAAAAAAAAAAAAAAAAAAAAAAAAAAAAAAAAAAAAAAAAAAA=" = true
    ∧ verifySignature "bc1q9vza2e8x573nczrlzms0wvx3gsqjx7vavgkx0l" "msg"
        "AgIBASECAAAAAAAAAAAAAAAAAAAAAAAAAAAAAAAAAAAAAAAAAAA=" = .ok false := by
  refine ⟨by decide, ?_⟩
  rw [(c1_boundary_contract "bc1q9vza2e8x573nczrlzms0wvx3gsqjx7vavgkx0l" "msg"
    "AgIBASECAAAAAAAAAAAAAAAAAAAAAAAAAAAAAAAAAAAAAAAAAAA=").1 (by decide)]
  rfl

/-! ## Witness codec round-trip (C7) -/

theorem b64_val_of_char : ∀ v : Nat, v < 64 → b64ValOf (b64CharOf v) = some v := by decide

theorem b64_char_ne_pad : ∀ v : Nat, v < 64 → ¬ (b64CharOf v = '=') := by decide

theorem b64_roundtrip :
    ∀ (n : Nat) (l : List Nat) (fe fd : Nat), l.length ≤ n → (∀ b ∈ l, b < 256) →
      l.length ≤ fe → l.length ≤ fd → b64DecAux fd (b64EncAux fe l) = some l := by
  intro n
  induction n with
  | zero =>
    intro l fe fd hn _ _ _
    have : l = [] := List.eq_nil_of_length_eq_zero (by omega)
    subst this
    cases fe <;> simp [b64EncAux, b64DecAux]
  | succ n ih =>
    intro l fe fd hn hb hfe hfd
    match l with
    | [] => cases fe <;> simp [b64EncAux, b64DecAux]
    | [a] =>
      have ha : a < 256 := hb a (by simp)
      match fe, fd with
      | fe' + 1, fd' + 1 =>
        have hv1 := b64_val_of_char (a / 4) (by omega)
        have hv2 := b64_val_of_char ((a % 4) * 16) (by omega)
        simp only [b64EncAux, b64DecAux, hv1, hv2, if_pos rfl, and_self, if_true]
        simp
        omega
    | [a, b] =>
      have ha : a < 256 := hb a (by simp)
      have hbb : b < 256 := hb b (by simp)
      match fe, fd with
      | fe' + 1, fd' + 1 =>
        have hv1 := b64_val_of_char (a / 4) (by omega)
        have hv2 := b64_val_of_char ((a % 4) * 16 + b / 16) (by omega)
        have hv3 := b64_val_of_char ((b % 16) * 4) (by omega)
        have hne3 := b64_char_ne_pad ((b % 16) * 4) (by omega)
        simp only [b64EncAux, b64DecAux, hv1, hv2, hv3, if_neg hne3, if_pos rfl, and_self, if_true]
        simp
        constructor <;> omega
    | a :: b :: c :: rest =>
      have ha : a < 256 := hb a (by simp)
      have hbb : b < 256 := hb b (by simp)
      have hcc : c < 256 := hb c (by simp)
      match fe, fd with
      | fe' + 1, fd' + 1 =>
        have hv1 := b64_val_of_char (a / 4) (by omega)
        have hv2 := b64_val_of_char ((a % 4) * 16 + b / 16) (by omega)
        have hv3 := b64_val_of_char ((b % 16) * 4 + c / 64) (by omega)
        have hv4 := b64_val_of_char (c % 64) (by omega)
        have hne3 := b64_char_ne_pad ((b % 16) * 4 + c / 64) (by omega)
        have hne4 := b64_char_ne_pad (c % 64) (by omega)
        have hrest : b64DecAux fd' (b64EncAux fe' rest) = some rest := by
          apply ih rest fe' fd'
          · simp at hn; omega
          · intro x hx; exact hb x (by simp [hx])
          · simp at hfe; omega
          · simp at hfd; omega
        simp only [b64EncAux, b64DecAux, hv1, hv2, hv3, hv4, if_neg hne3, if_neg hne4, hrest,
          Option.map_some]
        simp
        refine ⟨by omega, by omega, by omega⟩

theorem b64_enc_length :
    ∀ (n : Nat) (l : List Nat) (fe : Nat), l.length ≤ n → l.length ≤ fe →
      l.length ≤ (b64EncAux fe l).length := by
  intro n
  induction n with
  | zero =>
    intro l fe hn _
    have : l = [] := List.eq_nil_of_length_eq_zero (by omega)
    subst this
    simp
  | succ n ih =>
    intro l fe hn hfe
    match l with
    | [] => simp
    | [a] => match fe with | fe' + 1 => simp [b64EncAux]
    | [a, b] => match fe with | fe' + 1 => simp [b64EncAux]
    | a :: b :: c :: rest =>
      match fe with
      | fe' + 1 =>
        have := ih rest fe' (by simp at hn; omega) (by simp at hfe; omega)
        simp [b64EncAux]
        omega

theorem leBytes_lt : ∀ (k n : Nat), ∀ b ∈ leBytes k n, b < 256 := by
  intro k
  induction k with
  | zero => intro n b hb; simp [leBytes] at hb
  | succ k ih =>
    intro n b hb
    simp only [leBytes, List.mem_cons] at hb
    rcases hb with h | h
    · omega
    · exact ih _ b h

theorem compactSize_lt (n : Nat) : ∀ b ∈ compactSize n, b < 256 := by
  intro b hb
  unfold compactSize at hb
  split at hb
  · simp at hb; omega
  · split at hb
    · simp at hb
      rcases hb with h | h
      · omega
      · exact leBytes_lt 2 n b h
    · split at hb
      · simp at hb
        rcases hb with h | h
        · omega
        · exact leBytes_lt 4 n b h
      · simp at hb
        rcases hb with h | h
        · omega
        · exact leBytes_lt 8 n b h

theorem parseCS_compactSize (n : Nat) (rest : List Nat) (hn : n < 2 ^ 64) :
    parseCS (compactSize n ++ rest) = some (n, rest) := by
  unfold compactSize parseCS
  by_cases h1 : n < 0xfd
  · simp [h1]
  · by_cases h2 : n < 0x10000
    · rw [if_neg h1, if_pos h2]
      simp only [leBytes, List.cons_append, List.nil_append]
      have e1 : n % 256 + 256 * (n / 256 % 256) = n := by omega
      have hge : 0xfd ≤ n := by omega
      simp [e1, hge]
    · by_cases h3 : n < 0x100000000
      · rw [if_neg h1, if_neg h2, if_pos h3]
        simp only [leBytes, List.cons_append, List.nil_append]
        have e1 : n % 256 + 256 * (n / 256 % 256 + 256 * (n / 256 / 256 % 256
            + 256 * (n / 256 / 256 / 256 % 256))) = n := by omega
        have hge : 0x10000 ≤ n := by omega
        simp [e1, hge]
      · rw [if_neg h1, if_neg h2, if_neg h3]
        simp only [leBytes, List.cons_append, List.nil_append]
        have e1 : n % 256 + 256 * (n / 256 % 256 + 256 * (n / 256 / 256 % 256
            + 256 * (n / 256 / 256 / 256 % 256 + 256 * (n / 256 / 256 / 256 / 256 % 256
            + 256 * (n / 256 / 256 / 256 / 256 / 256 % 256
            + 256 * (n / 256 / 256 / 256 / 256 / 256 / 256 % 256
            + 256 * (n / 256 / 256 / 256 / 256 / 256 / 256 / 256 % 256))))))) = n := by omega
        have hge : 0x100000000 ≤ n := by omega
        simp [e1, hge]

theorem parseItem_encoded (it rest : List Nat) (hlen : it.length < 2 ^ 64) :
    Witness.parseItem (compactSize it.length ++ (it ++ rest)) = some (it, rest) := by
  unfold Witness.parseItem
  rw [parseCS_compactSize _ _ hlen]
  simp only [if_pos (by simp : it.length ≤ (it ++ rest).length)]
  rw [List.take_left, List.drop_left]

theorem parseItems_encoded :
    ∀ (items : List (List Nat)) (rest : List Nat), (∀ it ∈ items, it.length < 2 ^ 64) →
      Witness.parseItems items.length
          ((items.map (fun it => compactSize it.length ++ it)).flatten ++ rest)
        = some (items, rest) := by
  intro items
  induction items with
  | nil => intro rest _; simp [Witness.parseItems]
  | cons it its ih =>
    intro rest hlt
    have hit : it.length < 2 ^ 64 := hlt it (by simp)
    simp only [List.length_cons, List.map_cons, List.flatten_cons, Witness.parseItems,
      List.append_assoc]
    simp only [parseItem_encoded it ((its.map (fun x => compactSize x.length ++ x)).flatten ++ rest) hit]
    simp only [ih rest (fun x hx => hlt x (by simp [hx]))]

theorem deserializeBytes_serializeBytes (items : List (List Nat))
    (hcnt : items.length < 2 ^ 64) (hit : ∀ it ∈ items, it.length < 2 ^ 64) :
    Witness.deserializeBytes (Witness.serializeBytes items) = some items := by
  unfold Witness.serializeBytes Witness.deserializeBytes
  simp only [parseCS_compactSize items.length
    ((items.map (fun it => compactSize it.length ++ it)).flatten) hcnt]
  have hp : Witness.parseItems items.length
      ((items.map (fun it => compactSize it.length ++ it)).flatten) = some (items, []) := by
    have h := parseItems_encoded items [] hit
    simpa using h
  simp only [hp]

theorem serializeBytes_lt (items : List (List Nat))
    (h : ∀ it ∈ items, ∀ b ∈ it, b < 256) :
    ∀ b ∈ Witness.serializeBytes items, b < 256 := by
  intro b hb
  unfold Witness.serializeBytes at hb
  rw [List.mem_append] at hb
  rcases hb with hb | hb
  · exact compactSize_lt _ b hb
  · rw [List.mem_flatten] at hb
    obtain ⟨l, hl, hbl⟩ := hb
    rw [List.mem_map] at hl
    obtain ⟨it, hits, rfl⟩ := hl
    rw [List.mem_append] at hbl
    rcases hbl with h2 | h2
    · exact compactSize_lt _ b h2
    · exact h it hits b h2

/-- C7: deserializing the serialization of any witness stack — any ordered
sequence of byte buffers, the empty one included — returns exactly the
original stack (buffer entries are bytes, and the counts lie in
CompactSize's 8-byte domain). -/
theorem c7_witness_serialize_roundtrip :
    ∀ items : List (List Nat),
      (∀ it ∈ items, ∀ b ∈ it, b < 256) →
      items.length < 2 ^ 64 →
      (∀ it ∈ items, it.length < 2 ^ 64) →
      Witness.deserialize (Witness.serialize items) = some items := by
  intro items hbytes hcnt hit
  unfold Witness.serialize Witness.deserialize b64Encode b64Decode
  have hdata : (String.mk (b64EncAux (Witness.serializeBytes items).length
      (Witness.serializeBytes items))).data
      = b64EncAux (Witness.serializeBytes items).length (Witness.serializeBytes items) := rfl
  rw [hdata]
  rw [b64_roundtrip (Witness.serializeBytes items).length (Witness.serializeBytes items) _ _
    le_rfl (serializeBytes_lt items hbytes) le_rfl
    (b64_enc_length (Witness.serializeBytes items).length _ _ le_rfl le_rfl)]
  simp only [Option.some_bind]
  exact deserializeBytes_serializeBytes items hcnt hit

/-- C7 witness: a three-item stack (with an empty buffer) and the empty
stack both round-trip through the codec. -/
theorem c7_witness_serialize_roundtrip_witness :
    Witness.deserialize (Witness.serialize [[0, 1, 255], [], [77]]) = some [[0, 1, 255], [], [77]]
    ∧ Witness.deserialize (Witness.serialize ([] : List (List Nat))) = some [] := by
  constructor
  · exact c7_witness_serialize_roundtrip [[0, 1, 255], [], [77]] (by decide) (by decide) (by decide)
  · exact c7_witness_serialize_roundtrip [] (by decide) (by decide) (by decide)

set_option maxHeartbeats 4000000 in
/-- C2: the published BIP-322 vectors — the P2WPKH address verifies the
empty-message signature and rejects it for `Hello World`, and the P2TR
address verifies the `Hello World` signature and rejects it for the empty
message. -/
theorem c2_published_vectors :
    verifySignature "bc1q9vza2e8x573nczrlzms0wvx3gsqjx7vavgkx0l" ""
        "AkcwRAIgM2gBAQqvZX15ZiysmKmQpDrG83avLIT492QBzLnQIxYCIBaTpOaD20qRlEylyxFSeEA2ba9YOixpX8z46TSDtS40ASECx/EgAxlkQpQ9hYjgGu6EBCPMVPwVIVJqO4XCsMvViHI="
      = .ok true
    ∧ verifySignature "bc1q9vza2e8x573nczrlzms0wvx3gsqjx7vavgkx0l" "Hello World"
        "AkcwRAIgM2gBAQqvZX15ZiysmKmQpDrG83avLIT492QBzLnQIxYCIBaTpOaD20qRlEylyxFSeEA2ba9YOixpX8z46TSDtS40ASECx/EgAxlkQpQ9hYjgGu6EBCPMVPwVIVJqO4XCsMvViHI="
      = .ok false
    ∧ verifySignature "bc1ppv609nr0vr25u07u95waq5lucwfm6tde4nydujnu8npg4q75mr5sxq8lt3" "Hello World"
        "AUHd69PrJQEv+oKTfZ8l+WROBHuy9HKrbFCJu7U1iK2iiEy1vMU5EfMtjc+VSHM7aU0SDbak5IUZRVno2P5mjSafAQ=="
      = .ok true
    ∧ verifySignature "bc1ppv609nr0vr25u07u95waq5lucwfm6tde4nydujnu8npg4q75mr5sxq8lt3" ""
        "AUHd69PrJQEv+oKTfZ8l+WROBHuy9HKrbFCJu7U1iK2iiEy1vMU5EfMtjc+VSHM7aU0SDbak5IUZRVno2P5mjSafAQ=="
      = .ok false :=
  ⟨rfl, rfl, rfl, rfl⟩

end BSpec




